import Mathlib

/-!
Shallow embedding of `src/app/services/data_extractor.py` (telkom_extractor),
the data-extraction engine of the contract-OCR repository, together with
theorems settling the claims about it.

Modelling conventions:
* Python `str` is Lean `String`; most computation happens on `List Char`
  (`String.data`).  Python string methods (`strip`, `lower`, `splitlines`,
  `replace`, `in`, `startswith`) are embedded as executable functions below.
* Python `float` is modelled as `ℚ`.  Every float the extractor produces is
  obtained by parsing a decimal digit string, so all claim-relevant values are
  exactly representable and no claim depends on binary rounding.
* Python `re` patterns are embedded as backtracking matchers over `List Char`
  with the priority order of the Python engine (leftmost match, greedy /
  lazy / alternation order preserved).  Each matcher definition carries the
  original pattern in a comment.
* `Optional[X]` is `Option X`; Python truthiness of an `Optional[str]`
  (`None` and `""` are falsy) is `strTruthy` below.
* The pydantic model classes the extractor imports (`TerminPayment`,
  `TataCaraPembayaran`, `KontakPersonTelkom`, ...) are absent from
  `src/app/models/schemas.py` (which holds an older variant of the schema);
  their fields are reconstructed from the construction sites in
  `data_extractor.py` itself (and agree with spec section 3).  The metadata
  fields `extraction_timestamp` / `processing_time_seconds` (wall-clock
  values) and the debug-only `raw_text` field of `TerminPayment` are not
  modelled.
-/

namespace TelkomExtractor

/-! ### Character utilities (Python semantics) -/

/-- Python `\s` / `str.strip()` whitespace (ASCII part): space, tab, newline,
carriage return, vertical tab, form feed. -/
def isSpacePy (c : Char) : Bool :=
  c = ' ' || c = '\t' || c = '\n' || c = '\r' || c = Char.ofNat 11 || c = Char.ofNat 12

/-- Python regex `\w` (ASCII part): letters, digits, underscore. -/
def isWordC (c : Char) : Bool :=
  c.isAlpha || c.isDigit || c = '_'

/-- `str.lower()` on a character (ASCII). -/
def lowerC (c : Char) : Char := c.toLower

/-- Strip leading characters satisfying `p`, then trailing ones: the core of
Python `str.strip`. -/
def stripBy (p : Char → Bool) (l : List Char) : List Char :=
  ((l.dropWhile p).reverse.dropWhile p).reverse

/-- Python `str.strip()` on a char list. -/
def stripL (l : List Char) : List Char := stripBy isSpacePy l

/-- Python `str.strip()`. -/
def stripS (s : String) : String := ⟨stripL s.data⟩

/-- Python `str.lower()` on a char list. -/
def lowerL (l : List Char) : List Char := l.map lowerC

/-- Python `str.lower()`. -/
def lowerS (s : String) : String := ⟨lowerL s.data⟩

/-- Python `sub in s` (case-sensitive substring test). -/
def containsS (s sub : String) : Bool := decide (sub.data <:+: s.data)

/-- `keyword.lower() in t.lower()`: case-insensitive substring test, as used by
`_slice_after_keyword`. -/
def containsCi (t kw : String) : Bool := decide (lowerL kw.data <:+: lowerL t.data)

/-- Python `s.startswith(pre)`. -/
def startsWithS (s pre : String) : Bool := pre.data.isPrefixOf s.data

/-- `sep.join(texts)` on char lists. -/
def joinSep (sep : List Char) : List String → List Char
  | [] => []
  | [t] => t.data
  | t :: ts => t.data ++ sep ++ joinSep sep ts

/-- `" ".join(texts)`. -/
def joinSp (texts : List String) : String := ⟨joinSep [' '] texts⟩

/-- Value of a decimal digit character (`c.toNat - 48`). -/
def digitVal (c : Char) : Nat := c.toNat - 48

/-- Python `int()` on a list of decimal digit characters. -/
def natOfDigits (l : List Char) : Nat :=
  l.foldl (fun acc c => 10 * acc + digitVal c) 0

/-- Digit character for a value `< 10` (anything larger is clamped; the
extractor only ever formats remainders mod 10). -/
def digitChar (n : Nat) : Char :=
  if n = 0 then '0' else if n = 1 then '1' else if n = 2 then '2'
  else if n = 3 then '3' else if n = 4 then '4' else if n = 5 then '5'
  else if n = 6 then '6' else if n = 7 then '7' else if n = 8 then '8' else '9'

/-- Decimal digits of `n`, most significant first (fuel-structured so that the
kernel can evaluate it; `fuel > n` suffices since `n / 10` shrinks). -/
def natToStrAux : Nat → Nat → List Char
  | 0, _ => []
  | fuel + 1, n =>
    if n < 10 then [digitChar n]
    else natToStrAux fuel (n / 10) ++ [digitChar (n % 10)]

/-- Python `str(n)` for a natural number. -/
def natToStr (n : Nat) : List Char := natToStrAux (n + 1) n

/-- Python format `f"{n:0wd}"`: left-pad the decimal digits with zeros to
width `w`. -/
def padNum (w : Nat) (n : Nat) : List Char :=
  List.replicate (w - (natToStr n).length) '0' ++ natToStr n

/-- Python truthiness of an `Optional[str]`: `None` and `""` are falsy. -/
def strTruthy : Option String → Bool
  | none => false
  | some s => !(s == "")

/-- Python `a or b` for `Optional[str]` values. -/
def pyOr (a b : Option String) : Option String :=
  if strTruthy a then a else b

/-- Python `str.replace(pat, rep)` (all non-overlapping occurrences, scanning
left to right); fuel-structured, `fuel ≥ length l` suffices for nonempty
`pat`. -/
def replaceAllAux (pat rep : List Char) : Nat → List Char → List Char
  | 0, l => l
  | fuel + 1, l =>
    if pat.isPrefixOf l ∧ pat ≠ [] then
      rep ++ replaceAllAux pat rep fuel (l.drop pat.length)
    else
      match l with
      | [] => []
      | c :: t => c :: replaceAllAux pat rep fuel t

/-- Python `str.replace(pat, rep)`. -/
def replaceAll (pat rep l : List Char) : List Char :=
  replaceAllAux pat rep l.length l

/-- `re.sub(r'\s+', ' ', text)`: collapse every whitespace run to one space.
The boolean records whether the previous character was whitespace. -/
def collapseWsAux : Bool → List Char → List Char
  | _, [] => []
  | prevSp, c :: t =>
    if isSpacePy c then
      if prevSp then collapseWsAux true t else ' ' :: collapseWsAux true t
    else c :: collapseWsAux false t

/-- `re.sub(r'\s+', ' ', text)`. -/
def collapseWs (l : List Char) : List Char := collapseWsAux false l

/-- Python `str.splitlines()` (ASCII line boundaries `\n`, `\r`, `\r\n`; a
trailing boundary produces no extra empty line). -/
def splitLinesAux (acc : List Char) : List Char → List String
  | [] => if acc.isEmpty then [] else [⟨acc.reverse⟩]
  | '\r' :: '\n' :: t => ⟨acc.reverse⟩ :: splitLinesAux [] t
  | '\n' :: t => ⟨acc.reverse⟩ :: splitLinesAux [] t
  | '\r' :: t => ⟨acc.reverse⟩ :: splitLinesAux [] t
  | c :: t => splitLinesAux (c :: acc) t

/-- Python `str.splitlines()`. -/
def splitLinesPy (s : String) : List String := splitLinesAux [] s.data

/-! ### Backtracking regex matchers

A matcher of type `M α` consumes a prefix of a char list and yields the
possible results in the priority order of the Python `re` engine (greedy
quantifiers try the longest munch first, lazy ones the shortest, alternations
are tried left to right, optional groups try the present branch first).
All quantifiers in the embedded patterns range over character classes, so
every repetition is a closed enumeration of split points and all definitions
are structurally recursive. -/

def M (α : Type) : Type := List Char → List (α × List Char)

instance : Monad M where
  pure a := fun l => [(a, l)]
  bind m f := fun l => (m l).flatMap (fun p => f p.1 p.2)

/-- Matcher that always fails. -/
def mfail {α : Type} : M α := fun _ => []

/-- Alternation (left alternative has priority). -/
def malt {α : Type} (a b : M α) : M α := fun l => a l ++ b l

/-- Consume one character satisfying `p`. -/
def msat (p : Char → Bool) : M Char := fun l =>
  match l with
  | c :: t => if p c then [(c, t)] else []
  | [] => []

/-- Consume a literal character, returning it as a one-element list. -/
def mchar (c : Char) : M (List Char) := do
  let d ← msat (fun d => d = c)
  pure [d]

/-- Consume the characters of `w` case-insensitively (the `re.I` flag is set
on every embedded pattern), returning the consumed input characters. -/
def mlitCiL : List Char → M (List Char)
  | [] => pure []
  | c :: cs => do
    let d ← msat (fun d => lowerC d = lowerC c)
    let rest ← mlitCiL cs
    pure (d :: rest)

/-- Case-insensitive literal matcher. -/
def mlitCi (w : String) : M (List Char) := mlitCiL w.data

/-- Greedy `[class]*`: all split points of the maximal munch, longest first. -/
def mclsG (p : Char → Bool) : M (List Char) := fun l =>
  let t := l.takeWhile p
  (List.range (t.length + 1)).map
    (fun k => (t.take (t.length - k), l.drop (t.length - k)))

/-- Greedy `[class]+`. -/
def mclsPlusG (p : Char → Bool) : M (List Char) := fun l =>
  (mclsG p l).filter (fun pr => !pr.1.isEmpty)

/-- Lazy `[class]+?`: shortest munch first. -/
def mclsPlusL (p : Char → Bool) : M (List Char) := fun l =>
  let t := l.takeWhile p
  (List.range t.length).map (fun k => (t.take (k + 1), l.drop (k + 1)))

/-- Greedy bounded repetition `[class]{lo,hi}`, longest first. -/
def mclsRepG (p : Char → Bool) (lo hi : Nat) : M (List Char) := fun l =>
  let t := l.takeWhile p
  let mx := min hi t.length
  ((List.range (mx + 1)).map (fun k => mx - k)).filterMap
    (fun n => if lo ≤ n then some (t.take n, l.drop n) else none)

/-- Greedy option `(...)?`: present branch first. -/
def moptG {α : Type} (m : M α) : M (Option α) :=
  malt (do let a ← m; pure (some a)) (pure none)

/-- Trailing `\b` after a word character: succeed without consuming when the
next character is absent or not a word character. -/
def mNotWordNext : M Unit := fun l =>
  match l with
  | [] => [((), [])]
  | c :: _ => if isWordC c then [] else [((), l)]

/-- `$` (no `re.M`): end of input, or just before a final newline. -/
def mDollar : M Unit := fun l =>
  if l = [] ∨ l = ['\n'] then [((), l)] else []

/-- Leading `\b` for a pattern starting with a word character: the previous
character (if any) must not be a word character. -/
def atWordBoundary : Option Char → Bool
  | none => true
  | some c => !isWordC c

/-- Scan the input left to right (tracking the previous character for the
leading `\b` when `needB` is set) and return the first position where `m`
matches, together with its highest-priority result and the rest of the input:
this is `re.search`. -/
def scanMAux {α : Type} (needB : Bool) (m : M α) :
    Option Char → List Char → Option (α × List Char)
  | prev, [] =>
    match (if !needB || atWordBoundary prev then m [] else []) with
    | r :: _ => some r
    | [] => none
  | prev, c :: t =>
    match (if !needB || atWordBoundary prev then m (c :: t) else []) with
    | r :: _ => some r
    | [] => scanMAux needB m (some c) t

/-- `re.search` for an embedded pattern. -/
def searchM {α : Type} (needB : Bool) (m : M α) (l : List Char) :
    Option (α × List Char) :=
  scanMAux needB m none l

/-- First `some` produced by `f` over a list, in order (Python inner loops of
the form `for x in xs: if ...: return ...`). -/
def firstSome {α β : Type} : List α → (α → Option β) → Option β
  | [], _ => none
  | a :: as, f =>
    match f a with
    | some b => some b
    | none => firstSome as f

/-! ### Data model

Field layout reconstructed from the construction sites in
`data_extractor.py` (the pydantic classes imported there are missing from
`src/app/models/schemas.py`); agrees with spec section 3. -/

structure TerminPayment where
  termin_number : Nat
  period : String
  amount : ℚ
  deriving Repr, DecidableEq

structure TataCaraPembayaran where
  method_type : String
  description : String
  termin_payments : Option (List TerminPayment)
  total_termin_count : Option Nat
  total_amount : Option ℚ
  raw_text : Option String
  deriving Repr, DecidableEq

structure Perwakilan where
  nama : Option String
  jabatan : Option String
  deriving Repr, DecidableEq

structure KontakPersonPelanggan where
  nama : Option String
  jabatan : Option String
  email : Option String
  telepon : Option String
  deriving Repr, DecidableEq

structure KontakPersonTelkom where
  nama : Option String
  jabatan : Option String
  email : Option String
  telepon : Option String
  deriving Repr, DecidableEq

structure InformasiPelanggan where
  nama_pelanggan : Option String
  alamat : Option String
  npwp : Option String
  perwakilan : Option Perwakilan
  kontak_person : Option KontakPersonPelanggan
  deriving Repr, DecidableEq

structure JangkaWaktu where
  mulai : Option String
  akhir : Option String
  deriving Repr, DecidableEq

structure LayananUtama where
  connectivity_telkom : Nat
  non_connectivity_telkom : Nat
  bundling : Nat
  deriving Repr, DecidableEq

structure RincianLayanan where
  biaya_instalasi : ℚ
  biaya_langganan_tahunan : ℚ
  tata_cara_pembayaran : Option String
  deriving Repr, DecidableEq

structure TelkomContractData where
  informasi_pelanggan : Option InformasiPelanggan
  layanan_utama : LayananUtama
  rincian_layanan : List RincianLayanan
  tata_cara_pembayaran : TataCaraPembayaran
  kontak_person_telkom : KontakPersonTelkom
  jangka_waktu : Option JangkaWaktu
  deriving Repr, DecidableEq

/-! ### Document normalizer: `_texts_from_ocr`

Tagged union of the raw input shapes the Python function recognizes, in the
order it tries them; `dictOther` is a dict matching none of the three dict
shapes, `other` is any non-dict/list/str value.  List-shaped inputs carry
their elements after the `str(t)` conversion the function applies. -/

inductive RawOcr where
  | paddle (recTexts : List String)
  | lines (ls : List String)
  | textField (s : String)
  | dictOther
  | arr (items : List String)
  | str (s : String)
  | other
  deriving Repr, DecidableEq

/-- `_texts_from_ocr`: normalize raw OCR output to a flat token list. -/
def texts_from_ocr : RawOcr → List String
  | .paddle ts => ts
  | .lines ls => ls
  | .textField s => splitLinesPy s
  | .dictOther => []
  | .arr ts => ts
  | .str s => splitLinesPy s
  | .other => []

/-! ### Locator primitives -/

/-- `tok.strip().lower()`, the normalization `_find_eq` applies to both the
label and each token. -/
def normTok (s : String) : String := lowerS (stripS s)

/-- Scan loop of `_find_eq`, carrying the absolute index. -/
def findEqFrom (tgt : String) : List String → Nat → Option Nat
  | [], _ => none
  | t :: ts, i => if normTok t = tgt then some i else findEqFrom tgt ts (i + 1)

/-- `_find_eq(texts, label, start)`: index of the first token at or after
`start` equal (case-insensitively, after trimming) to `label`. -/
def find_eq (texts : List String) (label : String) (start : Nat) : Option Nat :=
  findEqFrom (normTok label) (texts.drop start) start

/-- `_value_after(texts, label, start)`: the stripped token following the
first exact label match, if any. -/
def value_after (texts : List String) (label : String) (start : Nat) :
    Option String :=
  match find_eq texts label start with
  | some i => if i + 1 < texts.length then some (stripS (texts.getD (i + 1) "")) else none
  | none => none

/-! ### Money parsing -/

/-- Python `float(s)` restricted to strings over digits and `.` (the only
shapes `_parse_rupiah_token` can produce): defined iff there is at least one
digit, at most one dot, and nothing else. -/
def pyFloatDigits (l : List Char) : Option ℚ :=
  if l.all (fun c => c.isDigit || c = '.') && (l.count '.' ≤ 1) && l.any Char.isDigit then
    let ip := l.takeWhile (fun c => c ≠ '.')
    let fp := (l.dropWhile (fun c => c ≠ '.')).drop 1
    some ((natOfDigits ip : ℚ) + (natOfDigits fp : ℚ) / (10 : ℚ) ^ fp.length)
  else none

/-- `_parse_rupiah_token(tok)`: strip non-numeric characters; with exactly one
comma and at least one period treat periods as thousands separators and the
comma as decimal point, otherwise strip commas; a failed `float()` yields
`0.0`. -/
def parse_rupiah_token (tok : String) : ℚ :=
  let s := tok.data.filter (fun c => c.isDigit || c = ',' || c = '.')
  let s' :=
    if s.count ',' = 1 ∧ 1 ≤ s.count '.' then
      (s.filter (fun c => c ≠ '.')).map (fun c => if c = ',' then '.' else c)
    else s.filter (fun c => c ≠ ',')
  (pyFloatDigits s').getD 0

/-- `_MONEY_TOKEN = r'^\s*(?:Rp\.?|Rp)?\s*[\d\.\,]+\s*$'` with `re.I`,
used via `.match` (anchored at the start; the trailing `\s*` absorbs any
final newline, so `$` is an end-of-input check). -/
def moneyTokenM : M Unit := do
  _ ← mclsG isSpacePy
  _ ← moptG (malt (do let a ← mlitCi "Rp"; let b ← moptG (mchar '.'); pure (a, b))
                  (do let a ← mlitCi "Rp"; pure (a, none)))
  _ ← mclsG isSpacePy
  _ ← mclsPlusG (fun c => c.isDigit || c = '.' || c = ',')
  _ ← mclsG isSpacePy
  mDollar

/-- `_MONEY_TOKEN.match(tok)` as a boolean. -/
def moneyMatch (tok : String) : Bool := !(moneyTokenM tok.data).isEmpty

/-- Inner loop of `_next_money`: first money-shaped token in the window. -/
def nextMoneyWindow : List String → Option ℚ
  | [] => none
  | t :: ts => if moneyMatch t then some (parse_rupiah_token t) else nextMoneyWindow ts

/-- `_next_money(texts, start_idx)`: first money token within the next four
positions, else the immediately following token if it contains a digit,
else `0.0`. -/
def next_money (texts : List String) (startIdx : Nat) : ℚ :=
  let stop := min (startIdx + 5) texts.length
  let window := (texts.drop (startIdx + 1)).take (stop - (startIdx + 1))
  match nextMoneyWindow window with
  | some v => v
  | none =>
    if startIdx + 1 < texts.length ∧ (texts.getD (startIdx + 1) "").data.any Char.isDigit then
      parse_rupiah_token (texts.getD (startIdx + 1) "")
    else 0

/-- `_find_count_after_phrase(texts, phrase)`: digits of the token after an
exact phrase match, else `0`. -/
def find_count_after_phrase (texts : List String) (phrase : String) : Nat :=
  match find_eq texts phrase 0 with
  | some i =>
    if i + 1 < texts.length then
      let ds := (texts.getD (i + 1) "").data.filter Char.isDigit
      if ds.isEmpty then 0 else natOfDigits ds
    else 0
  | none => 0

/-! ### Payment section text -/

/-- Scan loop of `_slice_after_keyword`: first token containing the keyword
case-insensitively. -/
def findContainingFrom (kw : String) : List String → Nat → Option Nat
  | [], _ => none
  | t :: ts, i => if containsCi t kw then some i else findContainingFrom kw ts (i + 1)

/-- First token (from the start) containing `kw` case-insensitively. -/
def findContaining (texts : List String) (kw : String) : Option Nat :=
  findContainingFrom kw texts 0

/-- `_slice_after_keyword(texts, keyword, span)`: join up to `span` tokens
starting at the first token containing the keyword, stripped; `""` when the
keyword is absent. -/
def slice_after_keyword (texts : List String) (kw : String) (span : Nat) : String :=
  match findContaining texts kw with
  | some i => ⟨stripL (joinSep [' '] ((texts.drop i).take span))⟩
  | none => ""

/-- `_get_payment_section_text(texts)`: header fallback chain, then the whole
document joined by spaces. -/
def get_payment_section_text (texts : List String) : String :=
  let p1 := slice_after_keyword texts "TATA CARA PEMBAYARAN" 20
  if p1 ≠ "" then p1
  else
    let p2 := slice_after_keyword texts "PEMBAYARAN" 20
    if p2 ≠ "" then p2
    else
      let p3 := slice_after_keyword texts "KETENTUAN PEMBAYARAN" 20
      if p3 ≠ "" then p3
      else joinSp texts

/-- `_get_payment_section_text` with the third fallback branch removed: the
candidate refinement of claim C10. -/
def get_payment_section_text_no3 (texts : List String) : String :=
  let p1 := slice_after_keyword texts "TATA CARA PEMBAYARAN" 20
  if p1 ≠ "" then p1
  else
    let p2 := slice_after_keyword texts "PEMBAYARAN" 20
    if p2 ≠ "" then p2
    else joinSp texts

/-- `_normalize_payment_text(text)`: lower, strip, collapse whitespace,
expand the `bln` abbreviations. -/
def normalize_payment_text (s : String) : String :=
  let l := stripL (lowerL s.data)
  let l := collapseWs l
  let l := replaceAll "/bln".data " per bulan".data l
  let l := replaceAll "bln".data " bulan".data l
  ⟨l⟩

/-! ### Payment classification patterns (`_detect_payment_type`)

Each matcher embeds one of the `re` patterns of the classifier; all start
with `\b` before a word character, which the boundary-aware scanner checks. -/

/-- Pattern `\bone\s*time\s*charge\b`. -/
def oneTimeChargeM : M Unit := do
  _ ← mlitCi "one"
  _ ← mclsG isSpacePy
  _ ← mlitCi "time"
  _ ← mclsG isSpacePy
  _ ← mlitCi "charge"
  mNotWordNext

/-- `re.search(r'\bone\s*time\s*charge\b', text, re.I)` as a boolean. -/
def hasOneTimeCharge (l : List Char) : Bool :=
  (searchM true oneTimeChargeM l).isSome

/-- Pattern `\btermin[-\s]*\d+\b`. -/
def terminNumM : M Unit := do
  _ ← mlitCi "termin"
  _ ← mclsG (fun c => c = '-' || isSpacePy c)
  _ ← mclsPlusG Char.isDigit
  mNotWordNext

/-- Pattern `\btermin\s+(pertama|kedua|ketiga|keempat|kelima)\b`. -/
def terminOrdM : M Unit := do
  _ ← mlitCi "termin"
  _ ← mclsPlusG isSpacePy
  _ ← malt (mlitCi "pertama") (malt (mlitCi "kedua") (malt (mlitCi "ketiga")
        (malt (mlitCi "keempat") (mlitCi "kelima"))))
  mNotWordNext

/-- The `termin_patterns` loop of the classifier. -/
def hasTerminPattern (l : List Char) : Bool :=
  (searchM true terminNumM l).isSome || (searchM true terminOrdM l).isSome

/-- `\brecurring\b`. -/
def recM1 : M (List Char) := do
  let a ← mlitCi "recurring"
  _ ← mNotWordNext
  pure a

/-- `\bperbulan\b|\bper\s*bulan\b` (the second alternative scans from the same
start positions; the Python pattern puts `\b` on each alternative). -/
def recM2 : M (List Char) :=
  malt (do let a ← mlitCi "perbulan"; _ ← mNotWordNext; pure a)
       (do
         let a ← mlitCi "per"
         let b ← mclsG isSpacePy
         let c ← mlitCi "bulan"
         _ ← mNotWordNext
         pure (a ++ b ++ c))

/-- `\bbulanan\b`. -/
def recM3 : M (List Char) := do
  let a ← mlitCi "bulanan"
  _ ← mNotWordNext
  pure a

/-- `\bsetiap\s*bulan\b`. -/
def recM4 : M (List Char) := do
  let a ← mlitCi "setiap"
  let b ← mclsG isSpacePy
  let c ← mlitCi "bulan"
  _ ← mNotWordNext
  pure (a ++ b ++ c)

/-- `\bpembayaran\s*bulanan\b`. -/
def recM5 : M (List Char) := do
  let a ← mlitCi "pembayaran"
  let b ← mclsG isSpacePy
  let c ← mlitCi "bulanan"
  _ ← mNotWordNext
  pure (a ++ b ++ c)

/-- `\btagihan\s*bulanan\b`. -/
def recM6 : M (List Char) := do
  let a ← mlitCi "tagihan"
  let b ← mclsG isSpacePy
  let c ← mlitCi "bulanan"
  _ ← mNotWordNext
  pure (a ++ b ++ c)

/-- `\blangganan\s*bulanan\b`. -/
def recM7 : M (List Char) := do
  let a ← mlitCi "langganan"
  let b ← mclsG isSpacePy
  let c ← mlitCi "bulanan"
  _ ← mNotWordNext
  pure (a ++ b ++ c)

/-- `\bmonthly\b`. -/
def recM8 : M (List Char) := do
  let a ← mlitCi "monthly"
  _ ← mNotWordNext
  pure a

/-- `\brecurring\s*monthly\b`. -/
def recM9 : M (List Char) := do
  let a ← mlitCi "recurring"
  let b ← mclsG isSpacePy
  let c ← mlitCi "monthly"
  _ ← mNotWordNext
  pure (a ++ b ++ c)

/-- `\bbilling\s*cycle\s*:\s*monthly\b`. -/
def recM10 : M (List Char) := do
  let a ← mlitCi "billing"
  let b ← mclsG isSpacePy
  let c ← mlitCi "cycle"
  let d ← mclsG isSpacePy
  let e ← mchar ':'
  let f ← mclsG isSpacePy
  let g ← mlitCi "monthly"
  _ ← mNotWordNext
  pure (a ++ b ++ c ++ d ++ e ++ f ++ g)

/-- `\bper\s*/?\s*bulan\b`. -/
def recM11 : M (List Char) := do
  let a ← mlitCi "per"
  let b ← mclsG isSpacePy
  let c ← moptG (mchar '/')
  let d ← mclsG isSpacePy
  let e ← mlitCi "bulan"
  _ ← mNotWordNext
  pure (a ++ b ++ c.getD [] ++ d ++ e)

/-- `recurring_patterns`, in source order. -/
def recurringPatterns : List (M (List Char)) :=
  [recM1, recM2, recM3, recM4, recM5, recM6, recM7, recM8, recM9, recM10, recM11]

/-- `for pattern in recurring_patterns: match = re.search(pattern, text)`:
the first pattern that matches yields its `match.group(0)`. -/
def searchRecurring (l : List Char) : Option String :=
  firstSome recurringPatterns (fun p => (searchM true p l).map (fun r => ⟨r.1⟩))

/-- `\bBULANAN\b` with `re.I`, searched in the whole document text. -/
def hasBulananHeader (l : List Char) : Bool :=
  (searchM true (do let a ← mlitCi "bulanan"; _ ← mNotWordNext; pure a) l).isSome

/-- An ASCII apostrophe, used in the recurring-detection description string. -/
def sq : String := ⟨[Char.ofNat 39]⟩

/-- `_detect_payment_type(texts)`: returns `(method_type, description,
confidence)` by the priority chain of the classifier. -/
def detect_payment_type (texts : List String) : String × String × String :=
  let payment_text := get_payment_section_text texts
  let normalized := normalize_payment_text payment_text
  if hasOneTimeCharge normalized.data then
    ("one_time_charge", "One Time Charge", "high")
  else if hasTerminPattern normalized.data then
    ("termin", "Pembayaran termin terdeteksi", "high")
  else
    let sectionOnly := slice_after_keyword texts "TATA CARA PEMBAYARAN" 20
    match
      (if sectionOnly ≠ "" then
        searchRecurring (normalize_payment_text sectionOnly).data
      else none) with
    | some phrase =>
      ("recurring", "Pembayaran bulanan terdeteksi (frasa: " ++ sq ++ phrase ++ sq ++ ")", "high")
    | none =>
      match searchRecurring normalized.data with
      | some phrase =>
        ("recurring", "Pembayaran bulanan terdeteksi (frasa: " ++ sq ++ phrase ++ sq ++ ")", "medium")
      | none =>
        if hasBulananHeader (joinSp texts).data then
          ("recurring", "Pembayaran bulanan terdeteksi (tabel biaya bulanan)", "medium")
        else
          ("one_time_charge", "Metode pembayaran tidak terdeteksi", "low")

/-! ### Termin extraction (`_extract_termin_payments`) -/

/-- The capture pattern
`Termin[-\s]*(\d+)[,\s]*yaitu\s+periode\s+(\w+\s*\d{4})\s*(?:sebesar\s*[:]*\s*)?[:]?\s*Rp\.?([\d\.,]+)`
(with `re.I`), yielding the three capture groups. -/
def terminFullM : M (List Char × List Char × List Char) := do
  _ ← mlitCi "Termin"
  _ ← mclsG (fun c => c = '-' || isSpacePy c)
  let g1 ← mclsPlusG Char.isDigit
  _ ← mclsG (fun c => c = ',' || isSpacePy c)
  _ ← mlitCi "yaitu"
  _ ← mclsPlusG isSpacePy
  _ ← mlitCi "periode"
  _ ← mclsPlusG isSpacePy
  let w ← mclsPlusG isWordC
  let sp ← mclsG isSpacePy
  let d4 ← mclsRepG Char.isDigit 4 4
  _ ← mclsG isSpacePy
  _ ← moptG (do
        _ ← mlitCi "sebesar"
        _ ← mclsG isSpacePy
        _ ← mclsG (fun c => c = ':')
        _ ← mclsG isSpacePy
        pure ())
  _ ← moptG (msat (fun c => c = ':'))
  _ ← mclsG isSpacePy
  _ ← mlitCi "Rp"
  _ ← moptG (msat (fun c => c = '.'))
  let g3 ← mclsPlusG (fun c => c.isDigit || c = '.' || c = ',')
  pure (g1, w ++ sp ++ d4, g3)

/-- `re.findall` for the termin pattern: repeatedly search and continue after
each match.  Every match consumes at least the literal `Termin`, so a fuel of
`length + 1` never runs out. -/
def terminFindAll : Nat → List Char → List (List Char × List Char × List Char)
  | 0, _ => []
  | fuel + 1, l =>
    match searchM false terminFullM l with
    | some (g, rest) => g :: terminFindAll fuel rest
    | none => []

/-- Sorting key relation of `termin_payments.sort(key=lambda t:
t.termin_number)`. -/
def terminLE (a b : TerminPayment) : Prop := a.termin_number ≤ b.termin_number

instance : DecidableRel terminLE := fun a b => Nat.decLe a.termin_number b.termin_number

instance : IsTotal TerminPayment terminLE := ⟨fun a b => Nat.le_total a.termin_number b.termin_number⟩

instance : IsTrans TerminPayment terminLE := ⟨fun _ _ _ => Nat.le_trans⟩

/-- Build one `TerminPayment` from a pattern match, as the loop body does:
`int` of group 1, stripped group 2, and group 3 cleaned
(`re.sub(r'[^\d\.,]', '', ...)`) and parsed via `_parse_rupiah_token("Rp " +
amount_str)`.  (The loop's `try` can never fail: group 1 is all digits.) -/
def mkTerminPayment (g : List Char × List Char × List Char) : TerminPayment :=
  let amountStr := (stripL g.2.2).filter (fun c => c.isDigit || c = '.' || c = ',')
  { termin_number := natOfDigits g.1
    period := ⟨stripL g.2.1⟩
    amount := parse_rupiah_token ⟨'R' :: 'p' :: ' ' :: amountStr⟩ }

/-- `_extract_termin_payments(texts)`: all pattern matches over the payment
section text, total amount accumulated in match order, list sorted ascending
by termin number (Python `list.sort` is stable; `List.insertionSort` is the
stable ascending sort). -/
def extract_termin_payments (texts : List String) :
    List TerminPayment × Nat × ℚ :=
  let payment_text := get_payment_section_text texts
  let ms := terminFindAll (payment_text.data.length + 1) payment_text.data
  let ps := ms.map mkTerminPayment
  let total := (ps.map TerminPayment.amount).sum
  let sorted := List.insertionSort terminLE ps
  (sorted, sorted.length, total)

/-! ### Page-1 extractor (`extract_from_page1_one_time`) -/

/-- Anchor loop: first token whose stripped form starts with `2.PELANGGAN`. -/
def findPelangganFrom : List String → Nat → Option Nat
  | [], _ => none
  | t :: ts, i =>
    if startsWithS (stripS t) "2.PELANGGAN" then some i
    else findPelangganFrom ts (i + 1)

/-- Scan loop for `findSubstrFrom`. -/
def firstSomeIdx : List String → Nat → String → Option Nat
  | [], _, _ => none
  | t :: ts, i, kw => if containsS t kw then some i else firstSomeIdx ts (i + 1) kw

/-- First token at or after index `start` containing `kw` (case-sensitive
`in`), as the representative-marker loop does. -/
def findSubstrFrom (texts : List String) (kw : String) (start : Nat) : Option Nat :=
  firstSomeIdx (texts.drop start) start kw

/-- The customer-information block of `extract_from_page1_one_time`:
`(nama_pelanggan, alamat, npwp, perwakilan)`. -/
def page1Customer (texts : List String) :
    Option String × Option String × Option String × Option Perwakilan :=
  match findPelangganFrom texts 0 with
  | some ip =>
    let nama := pyOr (value_after texts "Nama" ip) none
    let alamat := pyOr (value_after texts "Alamat" ip) none
    let npwp := pyOr (value_after texts "NPWP" ip) none
    let pr :=
      match findSubstrFrom texts "Diwakili secara sah oleh:" (ip + 1) with
      | some ir =>
        let pn := pyOr (value_after texts "Nama" ir) none
        let pj := pyOr (value_after texts "Jabatan" ir) none
        if strTruthy pn || strTruthy pj then some ⟨pn, pj⟩ else none
      | none => none
    (nama, alamat, npwp, pr)
  | none => (none, none, none, none)

/-- The payment block of `extract_from_page1_one_time` (classification plus
termin detail extraction with its one-time fallback). -/
def page1Payment (texts : List String) : TataCaraPembayaran :=
  let rawTata := slice_after_keyword texts "TATA CARA PEMBAYARAN" 16
  let rawText := if rawTata = "" then none else some rawTata
  let dp := detect_payment_type texts
  if dp.1 = "termin" then
    let tp := extract_termin_payments texts
    if tp.1.isEmpty then
      { method_type := "one_time_charge"
        description := "Pembayaran termin terdeteksi (gagal ekstrak detail)"
        termin_payments := none
        total_termin_count := none
        total_amount := none
        raw_text := rawText }
    else
      { method_type := "termin"
        description := "Pembayaran termin (" ++ toString tp.2.1 ++ " periode)"
        termin_payments := some tp.1
        total_termin_count := some tp.2.1
        total_amount := some tp.2.2
        raw_text := rawText }
  else
    { method_type := dp.1
      description := dp.2.1
      termin_payments := none
      total_termin_count := none
      total_amount := none
      raw_text := rawText }

/-- `extract_from_page1_one_time` on an already-normalized token list. -/
def extractFromTexts (texts : List String) : TelkomContractData :=
  let cust := page1Customer texts
  let connectivity := find_count_after_phrase texts "Layanan Connectivity TELKOM"
  let nonConnectivity := find_count_after_phrase texts "Layanan Non-Connectivity TELKOM"
  let bundling := find_count_after_phrase texts "Bundling Layanan Connectivity TELKOM& Solusi"
  let biayaInstalasi :=
    match find_eq texts "Biaya Instalasi" 0 with
    | some i => next_money texts i
    | none => 0
  let biayaLanggananTahunan :=
    match find_eq texts "Biaya Langganan Tahunan" 0 with
    | some i => next_money texts i
    | none => 0
  { informasi_pelanggan :=
      some { nama_pelanggan := cust.1
             alamat := cust.2.1
             npwp := cust.2.2.1
             perwakilan := cust.2.2.2
             kontak_person := none }
    layanan_utama :=
      { connectivity_telkom := connectivity
        non_connectivity_telkom := nonConnectivity
        bundling := bundling }
    rincian_layanan :=
      [{ biaya_instalasi := biayaInstalasi
         biaya_langganan_tahunan := biayaLanggananTahunan
         tata_cara_pembayaran := none }]
    tata_cara_pembayaran := page1Payment texts
    kontak_person_telkom := { nama := none, jabatan := none, email := none, telepon := none }
    jangka_waktu := some { mulai := none, akhir := none } }

/-- `extract_from_page1_one_time(ocr_json_page1)`. -/
def extract_from_page1_one_time (ocr : RawOcr) : TelkomContractData :=
  extractFromTexts (texts_from_ocr ocr)

/-! ### Indonesian date parsing (`_parse_date_id`)

The five `re.search` patterns are embedded as explicit matchers.  Each
matcher is attempted at every position left to right (`scanOpt`); inside a
position the only genuine backtracking points are the greedy `\d{1,2}`
(two digits first) and the greedy letter run of the concatenated forms,
which are enumerated explicitly; every other quantifier is followed by a
disjoint character class, so its maximal munch is the unique candidate. -/

/-- `_ID_MONTHS`, as an association list in source order. -/
def idMonths : List (String × Nat) :=
  [("jan", 1), ("januari", 1),
   ("feb", 2), ("februari", 2),
   ("mar", 3), ("maret", 3),
   ("apr", 4), ("april", 4),
   ("mei", 5),
   ("jun", 6), ("juni", 6),
   ("jul", 7), ("juli", 7),
   ("agu", 8), ("agustus", 8),
   ("sep", 9), ("sept", 9), ("september", 9),
   ("okt", 10), ("oktober", 10),
   ("nov", 11), ("november", 11),
   ("des", 12), ("desember", 12)]

/-- Dictionary lookup in `_ID_MONTHS`. -/
def lookupMonth : List (String × Nat) → String → Option Nat
  | [], _ => none
  | p :: ps, s => if p.1 = s then some p.2 else lookupMonth ps s

/-- `mon in _ID_MONTHS` / `_ID_MONTHS[mon]`. -/
def idMonth (s : String) : Option Nat := lookupMonth idMonths s

/-- `_to_iso_date(y, m, d)`: `f"{y:04d}-{m:02d}-{d:02d}"` (the `try` never
fires: the arguments are digit strings). -/
def to_iso_date (y m d : Nat) : String :=
  ⟨padNum 4 y ++ '-' :: (padNum 2 m ++ '-' :: padNum 2 d)⟩

/-- Trailing `\b` after a word character, as a test on the rest of input. -/
def boundaryAfter (l : List Char) : Bool :=
  match l with
  | [] => true
  | c :: _ => !isWordC c

/-- Greedy `(\d{1,2})` candidates: two digits first, then one. -/
def take12 : List Char → List (List Char × List Char)
  | a :: b :: t =>
    if a.isDigit && b.isDigit then [([a, b], t), ([a], b :: t)]
    else if a.isDigit then [([a], b :: t)] else []
  | [a] => if a.isDigit then [([a], [])] else []
  | [] => []

/-- `(20\d{2}|19\d{2})`: a four-digit year starting `20` or `19` (the two
alternatives have distinct prefixes, so the match is deterministic). -/
def year1920 : List Char → Option (Nat × List Char)
  | a :: b :: c :: d :: t =>
    if ((a = '2' ∧ b = '0') ∨ (a = '1' ∧ b = '9')) ∧ c.isDigit ∧ d.isDigit then
      some (natOfDigits [a, b, c, d], t)
    else none
  | _ => none

/-- `(\d{4})`: exactly four digits. -/
def dig4 : List Char → Option (List Char × List Char)
  | a :: b :: c :: d :: t =>
    if a.isDigit && b.isDigit && c.isDigit && d.isDigit then some ([a, b, c, d], t)
    else none
  | _ => none

/-- Pattern `\b(20\d{2}|19\d{2})-(\d{1,2})-(\d{1,2})\b` at one position,
returning `(y, m, d)`. -/
def p1At (prev : Option Char) (l : List Char) : Option (Nat × Nat × Nat) :=
  if atWordBoundary prev then
    match year1920 l with
    | some (y, r1) =>
      match r1 with
      | c1 :: r2 =>
        if c1 = '-' then
          firstSome (take12 r2) (fun md =>
            match md.2 with
            | c2 :: r4 =>
              if c2 = '-' then
                firstSome (take12 r4) (fun dd =>
                  if boundaryAfter dd.2 then
                    some (y, natOfDigits md.1, natOfDigits dd.1)
                  else none)
              else none
            | [] => none)
        else none
      | [] => none
    | none => none
  else none

/-- Pattern `\b(\d{1,2})[\/\-](\d{1,2})[\/\-](20\d{2}|19\d{2})\b` at one
position, returning `(d, m, y)`. -/
def p2At (prev : Option Char) (l : List Char) : Option (Nat × Nat × Nat) :=
  if atWordBoundary prev then
    firstSome (take12 l) (fun dd =>
      match dd.2 with
      | c :: r2 =>
        if c = '/' || c = '-' then
          firstSome (take12 r2) (fun mm =>
            match mm.2 with
            | c2 :: r3 =>
              if c2 = '/' || c2 = '-' then
                match year1920 r3 with
                | some (y, r4) =>
                  if boundaryAfter r4 then
                    some (natOfDigits dd.1, natOfDigits mm.1, y)
                  else none
                | none => none
              else none
            | [] => none)
        else none
      | [] => none)
  else none

/-- Pattern `\b(\d{1,2})\s+([A-Za-z\.]+)\s+(20\d{2}|19\d{2})\b` at one
position, returning `(d, month-chars, y)`.  `\s+` is followed by a disjoint
class and `[A-Za-z\.]+` by `\s+`, so both munches are maximal. -/
def p3At (prev : Option Char) (l : List Char) : Option (Nat × List Char × Nat) :=
  if atWordBoundary prev then
    firstSome (take12 l) (fun dd =>
      let sp1 := dd.2.takeWhile isSpacePy
      if sp1.isEmpty then none
      else
        let r2 := dd.2.dropWhile isSpacePy
        let mon := r2.takeWhile (fun c => c.isAlpha || c = '.')
        if mon.isEmpty then none
        else
          let r3 := r2.dropWhile (fun c => c.isAlpha || c = '.')
          let sp2 := r3.takeWhile isSpacePy
          if sp2.isEmpty then none
          else
            match year1920 (r3.dropWhile isSpacePy) with
            | some (y, r4) =>
              if boundaryAfter r4 then some (natOfDigits dd.1, mon, y) else none
            | none => none)
  else none

/-- Splits of the maximal letter run `w` (followed by `rest`), longest first:
the backtracking candidates of a greedy `([A-Za-z]+)` that must leave a
four-digit suffix behind. -/
def alphaSplits (w rest : List Char) : List (List Char × List Char) :=
  (List.range w.length).map
    (fun j => (w.take (w.length - j), w.drop (w.length - j) ++ rest))

/-- Pattern `\b(\d{1,2})([A-Za-z]+)(\d{4})\b` at one position, returning
`(d, month-chars, y)`. -/
def p4At (prev : Option Char) (l : List Char) : Option (Nat × List Char × Nat) :=
  if atWordBoundary prev then
    firstSome (take12 l) (fun dd =>
      let w := dd.2.takeWhile Char.isAlpha
      if w.isEmpty then none
      else
        firstSome (alphaSplits w (dd.2.dropWhile Char.isAlpha)) (fun ms =>
          match dig4 ms.2 with
          | some (y4, r2) =>
            if boundaryAfter r2 then
              some (natOfDigits dd.1, ms.1, natOfDigits y4)
            else none
          | none => none))
  else none

/-- Pattern `\b(\d{1,2})\s*([A-Za-z]+)(\d{4})\b` at one position, returning
`(d, month-chars, y)`. -/
def p5At (prev : Option Char) (l : List Char) : Option (Nat × List Char × Nat) :=
  if atWordBoundary prev then
    firstSome (take12 l) (fun dd =>
      let r2 := dd.2.dropWhile isSpacePy
      let w := r2.takeWhile Char.isAlpha
      if w.isEmpty then none
      else
        firstSome (alphaSplits w (r2.dropWhile Char.isAlpha)) (fun ms =>
          match dig4 ms.2 with
          | some (y4, r3) =>
            if boundaryAfter r3 then
              some (natOfDigits dd.1, ms.1, natOfDigits y4)
            else none
          | none => none))
  else none

/-- Leftmost-position scan of a deterministic matcher (`re.search`). -/
def scanOpt {α : Type} (f : Option Char → List Char → Option α) :
    Option Char → List Char → Option α
  | prev, [] => f prev []
  | prev, c :: t =>
    match f prev (c :: t) with
    | some a => some a
    | none => scanOpt f (some c) t

/-- Python `mon.strip(".")`: strip dots from both ends. -/
def stripDots (l : List Char) : List Char := stripBy (fun c => c = '.') l

/-- Patterns 4 and 5 of `_parse_date_id` (the concatenated `DDMonthYYYY`
forms); entered whenever the earlier patterns did not return. -/
def parseDateP5 (l : List Char) : Option String :=
  match scanOpt p5At none l with
  | some (d, mon, y) =>
    match idMonth ⟨lowerL mon⟩ with
    | some mo => some (to_iso_date y mo d)
    | none => none
  | none => none

/-- Pattern 4, falling through to pattern 5. -/
def parseDateP4 (l : List Char) : Option String :=
  match scanOpt p4At none l with
  | some (d, mon, y) =>
    match idMonth ⟨lowerL mon⟩ with
    | some mo => some (to_iso_date y mo d)
    | none => parseDateP5 l
  | none => parseDateP5 l

/-- `_parse_date_id(s)`: try the five patterns in order and return the first
canonical date, else `None`. -/
def parse_date_id (s : String) : Option String :=
  let l := stripL s.data
  match scanOpt p1At none l with
  | some (y, m, d) => some (to_iso_date y m d)
  | none =>
    match scanOpt p2At none l with
    | some (d, m, y) => some (to_iso_date y m d)
    | none =>
      match scanOpt p3At none l with
      | some (d, mon, y) =>
        match idMonth ⟨stripDots (lowerL mon)⟩ with
        | some mo => some (to_iso_date y mo d)
        | none => parseDateP4 l
      | none => parseDateP4 l

/-! ### Page 2: jangka waktu and contact blocks -/

/-- `_blob(texts)`: `"\n".join(texts)`. -/
def blob (texts : List String) : String := ⟨joinSep ['\n'] texts⟩

/-- `_norm_label(s)`. -/
def norm_label (s : String) : String :=
  let l := stripL (lowerL s.data)
  let l := l.filter (fun c => c ≠ '*')
  let l := l.filter (fun c => c ≠ ')')
  let l := l.filter (fun c => c ≠ '(')
  let l := l.filter (fun c => c ≠ ':')
  let l := replaceAll "telepon/gsm".data "telepon".data l
  let l := replaceAll "e-mail".data "email".data l
  -- the final `.replace("email", "email")` is the identity and is omitted
  ⟨stripL l⟩

/-- Does some way of matching `m` consume the entire input
(`re.fullmatch`)? -/
def fullmatchM {α : Type} (m : M α) (l : List Char) : Bool :=
  (m l).any (fun r => r.2.isEmpty)

/-- `_EMAIL_RE = r'[\w\.-]+@[\w\.-]+\.\w+'`. -/
def emailM : M Unit := do
  _ ← mclsPlusG (fun c => isWordC c || c = '.' || c = '-')
  _ ← msat (fun c => c = '@')
  _ ← mclsPlusG (fun c => isWordC c || c = '.' || c = '-')
  _ ← msat (fun c => c = '.')
  _ ← mclsPlusG isWordC
  pure ()

/-- `_is_email(tok)`. -/
def is_email (tok : String) : Bool := fullmatchM emailM (stripL tok.data)

/-- `_PHONE_RE = r'(?:\+62|0)[\d\-\s]{7,20}'`. -/
def phoneM : M Unit := do
  _ ← malt (mlitCi "+62") (mlitCi "0")
  _ ← mclsRepG (fun c => c.isDigit || c = '-' || isSpacePy c) 7 20
  pure ()

/-- `_is_phone(tok)`. -/
def is_phone (tok : String) : Bool := fullmatchM phoneM (stripL tok.data)

/-- Pattern 1 of `_extract_jangka_waktu`:
`berlaku\s+sejak\s*tanggal?\s+(.+?)\s+(?:hingga|sampai(?:\s+dengan)?)\s+(.+?)(?:\s|$)`
(`re.I`, no DOTALL: `.` excludes the newline). -/
def jangkaP1 : M (List Char × List Char) := do
  _ ← mlitCi "berlaku"
  _ ← mclsPlusG isSpacePy
  _ ← mlitCi "sejak"
  _ ← mclsG isSpacePy
  _ ← mlitCi "tangga"
  _ ← moptG (msat (fun c => lowerC c = 'l'))
  _ ← mclsPlusG isSpacePy
  let g1 ← mclsPlusL (fun c => c ≠ '\n')
  _ ← mclsPlusG isSpacePy
  _ ← malt (do _ ← mlitCi "hingga"; pure ())
           (do
             _ ← mlitCi "sampai"
             _ ← moptG (do
                   _ ← mclsPlusG isSpacePy
                   _ ← mlitCi "dengan"
                   pure ())
             pure ())
  _ ← mclsPlusG isSpacePy
  let g2 ← mclsPlusL (fun c => c ≠ '\n')
  _ ← malt (do _ ← msat isSpacePy; pure ()) mDollar
  pure (g1, g2)

/-- Pattern 2 of `_extract_jangka_waktu`:
`berlaku\s+sejak[^0-9]*(\d{1,2}[A-Za-z]+\d{4})\s*(?:sampai\s+dengan|hingga)\s*(\d{1,2}\s*[A-Za-z]+\s*\d{4})`
(`re.I`). -/
def jangkaP2 : M (List Char × List Char) := do
  _ ← mlitCi "berlaku"
  _ ← mclsPlusG isSpacePy
  _ ← mlitCi "sejak"
  _ ← mclsG (fun c => !c.isDigit)
  let d1 ← mclsRepG Char.isDigit 1 2
  let w1 ← mclsPlusG Char.isAlpha
  let y1 ← mclsRepG Char.isDigit 4 4
  _ ← mclsG isSpacePy
  _ ← malt (do
        _ ← mlitCi "sampai"
        _ ← mclsPlusG isSpacePy
        _ ← mlitCi "dengan"
        pure ())
      (do _ ← mlitCi "hingga"; pure ())
  _ ← mclsG isSpacePy
  let d2 ← mclsRepG Char.isDigit 1 2
  let s1 ← mclsG isSpacePy
  let w2 ← mclsPlusG Char.isAlpha
  let s2 ← mclsG isSpacePy
  let y2 ← mclsRepG Char.isDigit 4 4
  pure (d1 ++ w1 ++ y1, d2 ++ s1 ++ w2 ++ s2 ++ y2)

/-- The first-two-parseable-dates fallback loop of `_extract_jangka_waktu`
(`need` counts how many dates are still wanted). -/
def collectDates : List String → Nat → List String
  | [], _ => []
  | t :: ts, need =>
    if need = 0 then []
    else
      match parse_date_id t with
      | some d => d :: collectDates ts (need - 1)
      | none => collectDates ts need

/-- `_extract_jangka_waktu(texts)`: the two phrase patterns (each used only
when both captured dates parse), then the first-two-dates fallback. -/
def extract_jangka_waktu (texts : List String) :
    Option String × Option String :=
  let b := blob texts
  let viaP1 :=
    match searchM false jangkaP1 b.data with
    | some (g, _) =>
      match parse_date_id ⟨g.1⟩, parse_date_id ⟨g.2⟩ with
      | some s, some e => some (s, e)
      | _, _ => none
    | none => none
  match viaP1 with
  | some (s, e) => (some s, some e)
  | none =>
    let viaP2 :=
      match searchM false jangkaP2 b.data with
      | some (g, _) =>
        match parse_date_id ⟨g.1⟩, parse_date_id ⟨g.2⟩ with
        | some s, some e => some (s, e)
        | _, _ => none
      | none => none
    match viaP2 with
    | some (s, e) => (some s, some e)
    | none =>
      match collectDates texts 2 with
      | c0 :: c1 :: _ => (some c0, some c1)
      | _ => (none, none)

/-- The four-field label/value dictionary of `read_contact`. -/
structure ContactFields where
  nama : Option String
  jabatan : Option String
  telepon : Option String
  email : Option String
  deriving Repr, DecidableEq

/-- All fields unset. -/
def ContactFields.empty : ContactFields := ⟨none, none, none, none⟩

/-- `sum(1 for v in fields.values() if v)`: count of truthy field values. -/
def ContactFields.filled (f : ContactFields) : Nat :=
  (if strTruthy f.nama then 1 else 0) + (if strTruthy f.jabatan then 1 else 0) +
  (if strTruthy f.telepon then 1 else 0) + (if strTruthy f.email then 1 else 0)

/-- `fields[lbl] = val` guarded by `fields.get(lbl) is None`. -/
def ContactFields.setIfNone (f : ContactFields) (lbl : String) (val : String) :
    ContactFields :=
  if lbl = "nama" then (if f.nama.isNone then { f with nama := some val } else f)
  else if lbl = "jabatan" then (if f.jabatan.isNone then { f with jabatan := some val } else f)
  else if lbl = "telepon" then (if f.telepon.isNone then { f with telepon := some val } else f)
  else if lbl = "email" then (if f.email.isNone then { f with email := some val } else f)
  else f

/-- `{k: v for k, v in fields.items() if v}`: drop falsy values. -/
def ContactFields.dropFalsy (f : ContactFields) : ContactFields :=
  ⟨if strTruthy f.nama then f.nama else none,
   if strTruthy f.jabatan then f.jabatan else none,
   if strTruthy f.telepon then f.telepon else none,
   if strTruthy f.email then f.email else none⟩

/-- `any(fields.values())` on an already-filtered dictionary. -/
def ContactFields.anySet (f : ContactFields) : Bool :=
  f.nama.isSome || f.jabatan.isSome || f.telepon.isSome || f.email.isSome

/-- The `read_contact` label/value loop of `_extract_contact_blocks`.
Arguments: fuel (structural; `length seq` suffices since every step consumes
at least one token), current fields, pending label, consumed count, remaining
tokens. -/
def readContactAux : Nat → ContactFields → Option String → Nat → List String →
    ContactFields × Nat
  | 0, fields, _, i, _ => (fields, i)
  | _, fields, _, i, [] => (fields, i)
  | fuel + 1, fields, lastLabel, i, s :: rest =>
    let tokRaw := stripS s
    let tok := norm_label tokRaw
    if tok = "nama" ∨ tok = "jabatan" ∨ tok = "telepon" ∨ tok = "email" then
      if tok = "nama" ∧ 2 ≤ fields.filled then (fields, i)
      else readContactAux fuel fields (some tok) (i + 1) rest
    else
      match lastLabel with
      | some lbl =>
        if lbl = "email" ∧ ¬is_email tokRaw then
          match rest with
          | next :: rest2 =>
            if is_email (stripS next) then
              readContactAux fuel (fields.setIfNone lbl (stripS next)) none (i + 2) rest2
            else readContactAux fuel fields none (i + 1) rest
          | [] => readContactAux fuel fields none (i + 1) rest
        else if lbl = "telepon" ∧ ¬is_phone tokRaw then
          match rest with
          | next :: rest2 =>
            if is_phone (stripS next) then
              readContactAux fuel (fields.setIfNone lbl (stripS next)) none (i + 2) rest2
            else readContactAux fuel fields none (i + 1) rest
          | [] => readContactAux fuel fields none (i + 1) rest
        else
          readContactAux fuel (fields.setIfNone lbl tokRaw) none (i + 1) rest
      | none =>
        if containsS tok "wajib diisi" then (fields, i + 1)
        else readContactAux fuel fields none (i + 1) rest

/-- `read_contact(seq)`. -/
def read_contact (seq : List String) : ContactFields × Nat :=
  readContactAux seq.length ContactFields.empty none 0 seq

/-- Anchor loop of `_extract_contact_blocks`: `"7.KONTAKPERSON" in
t.replace(" ", "") or "7.KONTAK PERSON" in t`. -/
def findKontakFrom : List String → Nat → Option Nat
  | [], _ => none
  | t :: ts, i =>
    if containsS ⟨t.data.filter (fun c => c ≠ ' ')⟩ "7.KONTAKPERSON" ||
       containsS t "7.KONTAK PERSON" then some i
    else findKontakFrom ts (i + 1)

/-- `sub.index("TELKOM")` with the `ValueError → 0` fallback. -/
def telkomAnchorIdx : List String → Nat → Option Nat
  | [], _ => none
  | t :: ts, i => if t = "TELKOM" then some i else telkomAnchorIdx ts (i + 1)

/-- `_extract_contact_blocks(texts)`: the TELKOM block then the PELANGGAN
block below the `7.KONTAK PERSON` anchor. -/
def extract_contact_blocks (texts : List String) :
    ContactFields × ContactFields :=
  match findKontakFrom texts 0 with
  | none => (ContactFields.empty, ContactFields.empty)
  | some start =>
    let sub := (texts.drop start).take 120
    let telkomAnchor := (telkomAnchorIdx sub 0).getD 0
    let telkomTokens := sub.drop telkomAnchor
    let tr := read_contact telkomTokens
    let pelangganTokens := telkomTokens.drop tr.2
    let pr := read_contact pelangganTokens
    (tr.1.dropFalsy, pr.1.dropFalsy)

/-! ### Page-2 merge (`merge_with_page2`) -/

/-- `merge_with_page2(existing, ocr_json_page2)`: fill the date range with a
first-truthy-wins policy and replace the contact blocks wholesale when the
page-2 extraction produced any field. -/
def merge_with_page2 (existing : TelkomContractData) (ocr2 : RawOcr) :
    TelkomContractData :=
  let texts := texts_from_ocr ocr2
  let dates := extract_jangka_waktu texts
  let jw0 := existing.jangka_waktu.getD { mulai := none, akhir := none }
  let jw1 := if strTruthy dates.1 then { jw0 with mulai := pyOr jw0.mulai dates.1 } else jw0
  let jw2 := if strTruthy dates.2 then { jw1 with akhir := pyOr jw1.akhir dates.2 } else jw1
  let cb := extract_contact_blocks texts
  let kpt :=
    if cb.1.anySet then
      ({ nama := cb.1.nama, jabatan := cb.1.jabatan, email := cb.1.email,
         telepon := cb.1.telepon } : KontakPersonTelkom)
    else existing.kontak_person_telkom
  let ip0 := existing.informasi_pelanggan.getD
    { nama_pelanggan := none, alamat := none, npwp := none, perwakilan := none,
      kontak_person := none }
  let kpp : KontakPersonPelanggan :=
    { nama := cb.2.nama, jabatan := cb.2.jabatan, email := cb.2.email,
      telepon := cb.2.telepon }
  let ip1 :=
    if cb.2.anySet then { ip0 with kontak_person := some kpp } else ip0
  { existing with
      jangka_waktu := some jw2
      informasi_pelanggan := some ip1
      kontak_person_telkom := kpt }

/-! ### Auxiliary definitions used by the claim statements -/

/-- The all-default record: what `extract_from_page1_one_time` produces from
an empty token sequence. -/
def defaultRecord : TelkomContractData :=
  { informasi_pelanggan :=
      some { nama_pelanggan := none, alamat := none, npwp := none,
             perwakilan := none, kontak_person := none }
    layanan_utama := { connectivity_telkom := 0, non_connectivity_telkom := 0, bundling := 0 }
    rincian_layanan :=
      [{ biaya_instalasi := 0, biaya_langganan_tahunan := 0, tata_cara_pembayaran := none }]
    tata_cara_pembayaran :=
      { method_type := "one_time_charge"
        description := "Metode pembayaran tidak terdeteksi"
        termin_payments := none
        total_termin_count := none
        total_amount := none
        raw_text := none }
    kontak_person_telkom := { nama := none, jabatan := none, email := none, telepon := none }
    jangka_waktu := some { mulai := none, akhir := none } }

/-- Canonical `YYYY-MM-DD` shape: ten characters, digits with dashes at
positions 4 and 7. -/
def isIsoShape (s : String) : Bool :=
  match s.data with
  | [a, b, c, d, e, f, g, h, i, j] =>
    a.isDigit && b.isDigit && c.isDigit && d.isDigit && e = '-' &&
    f.isDigit && g.isDigit && h = '-' && i.isDigit && j.isDigit
  | _ => false

/-- A record whose date-range start is the (non-null but falsy) empty string:
the claim-C6 counterexample input. -/
def mergeCounterRecord : TelkomContractData :=
  { informasi_pelanggan := none
    layanan_utama := { connectivity_telkom := 0, non_connectivity_telkom := 0, bundling := 0 }
    rincian_layanan := []
    tata_cara_pembayaran :=
      { method_type := "one_time_charge", description := "", termin_payments := none,
        total_termin_count := none, total_amount := none, raw_text := none }
    kontak_person_telkom := { nama := none, jabatan := none, email := none, telepon := none }
    jangka_waktu := some { mulai := some "", akhir := some "2025-01-01" } }

/-- A record with a fully set, non-empty date range: the claim-C6 witness
input. -/
def mergeWitnessRecord : TelkomContractData :=
  { mergeCounterRecord with
      jangka_waktu := some { mulai := some "2024-01-01", akhir := some "2025-12-31" } }

/-! ## Theorems -/

/-- C9: for every input, the record returned by page-1 extraction has an
all-null Telkom contact, an all-null date range, and a null customer
contact-person sub-record — these slots are placeholders only the page-2
merge can populate. -/
theorem page1_placeholder_slots (ocr : RawOcr) :
    (extract_from_page1_one_time ocr).kontak_person_telkom =
      { nama := none, jabatan := none, email := none, telepon := none } ∧
    (extract_from_page1_one_time ocr).jangka_waktu =
      some { mulai := none, akhir := none } ∧
    Option.map InformasiPelanggan.kontak_person
      (extract_from_page1_one_time ocr).informasi_pelanggan = some none :=
  ⟨rfl, rfl, rfl⟩

/-- C3: the page-1 extraction entry point is total (it returns a record for
every input, so, in the embedding, it never raises), unrecognized raw shapes
normalize to the empty token sequence, and extraction from an empty sequence
yields the all-default record — the worst observable outcome. -/
theorem page1_total_default :
    (∀ ocr : RawOcr, ∃ r : TelkomContractData, extract_from_page1_one_time ocr = r) ∧
    texts_from_ocr RawOcr.dictOther = [] ∧
    texts_from_ocr RawOcr.other = [] ∧
    (∀ ocr : RawOcr, texts_from_ocr ocr = [] →
      extract_from_page1_one_time ocr = defaultRecord) := by
  refine ⟨fun ocr => ⟨_, rfl⟩, rfl, rfl, fun ocr h => ?_⟩
  unfold extract_from_page1_one_time
  rw [h]
  rfl

/-- Witness for C3 at the unrecognized shape `RawOcr.other`. -/
theorem page1_total_default_witness :
    extract_from_page1_one_time RawOcr.other = defaultRecord :=
  page1_total_default.2.2.2 RawOcr.other rfl

/-- C4: whenever the normalized payment-section text contains the explicit
"One Time Charge" phrase (in the word-boundary sense of the classifier's
first rule), the classifier returns `one_time_charge` with high confidence —
whatever else (e.g. the recurring keyword "bulanan") the text contains. -/
theorem one_time_charge_priority (texts : List String)
    (h : hasOneTimeCharge
      (normalize_payment_text (get_payment_section_text texts)).data = true) :
    detect_payment_type texts = ("one_time_charge", "One Time Charge", "high") := by
  unfold detect_payment_type
  simp [h]

/-- Witness for C4: a payment text containing both "One Time Charge" and the
recurring keyword "bulanan" (which the recurring rules would match) is
classified `one_time_charge` with high confidence. -/
theorem one_time_charge_priority_witness :
    detect_payment_type ["Pembayaran secara One Time Charge dan bulanan"] =
      ("one_time_charge", "One Time Charge", "high") ∧
    searchRecurring (normalize_payment_text
      (get_payment_section_text ["Pembayaran secara One Time Charge dan bulanan"])).data =
      some "bulanan" :=
  ⟨one_time_charge_priority _ (by decide), by decide⟩

/-- The total-amount component of `_extract_termin_payments` is the sum of
the amounts of the matched records in match order (before sorting). -/
theorem extract_termin_total_eq (texts : List String) :
    (extract_termin_payments texts).2.2 =
      (((terminFindAll ((get_payment_section_text texts).data.length + 1)
          (get_payment_section_text texts).data).map mkTerminPayment).map
        TerminPayment.amount).sum := rfl

set_option maxRecDepth 100000 in
set_option maxHeartbeats 4000000 in
/-- C1: on the spec's termin example the extractor does produce exactly two
records ordered `[1, 2]` with `total_termin_count = 2`, but every amount
parses to `0` — `float("1.000.000")` raises (two dots once the comma-free
token keeps its thousands separators) and the error handler substitutes
`0.0` — so `total_amount = 0`, not the `3000000.0` the claim states. -/
theorem termin_spec_input_eval :
    (extract_termin_payments
        ["Termin-1, yaitu periode Januari 2025: Rp1.000.000 Termin-2, yaitu periode Februari 2025: Rp2.000.000"]).1 =
      [{ termin_number := 1, period := "Januari 2025", amount := 0 },
       { termin_number := 2, period := "Februari 2025", amount := 0 }] ∧
    (extract_termin_payments
        ["Termin-1, yaitu periode Januari 2025: Rp1.000.000 Termin-2, yaitu periode Februari 2025: Rp2.000.000"]).2.1 = 2 ∧
    (extract_termin_payments
        ["Termin-1, yaitu periode Januari 2025: Rp1.000.000 Termin-2, yaitu periode Februari 2025: Rp2.000.000"]).2.2 = 0 := by
  refine ⟨by decide, by decide, ?_⟩
  rw [extract_termin_total_eq]
  have hms : terminFindAll
      ((get_payment_section_text
        ["Termin-1, yaitu periode Januari 2025: Rp1.000.000 Termin-2, yaitu periode Februari 2025: Rp2.000.000"]).data.length + 1)
      (get_payment_section_text
        ["Termin-1, yaitu periode Januari 2025: Rp1.000.000 Termin-2, yaitu periode Februari 2025: Rp2.000.000"]).data =
      [("1".data, "Januari 2025".data, "1.000.000".data),
       ("2".data, "Februari 2025".data, "2.000.000".data)] := by decide
  rw [hms]
  have ha : (mkTerminPayment ("1".data, "Januari 2025".data, "1.000.000".data)).amount = 0 := by decide
  have hb : (mkTerminPayment ("2".data, "Februari 2025".data, "2.000.000".data)).amount = 0 := by decide
  simp [ha, hb]

/-- The termin list produced by `_extract_termin_payments` is sorted
ascending by termin number. -/
theorem extract_termin_sorted (texts : List String) :
    List.Sorted terminLE (extract_termin_payments texts).1 := by
  unfold extract_termin_payments
  exact List.sorted_insertionSort terminLE _

/-- `total_termin_count` is the length of the returned list. -/
theorem extract_termin_count (texts : List String) :
    (extract_termin_payments texts).2.1 = (extract_termin_payments texts).1.length := rfl

/-- `total_amount` is the sum of the amounts of the returned (sorted) list:
the pre-sort accumulation equals the post-sort sum because sorting permutes
the list. -/
theorem extract_termin_sum (texts : List String) :
    (extract_termin_payments texts).2.2 =
      ((extract_termin_payments texts).1.map TerminPayment.amount).sum := by
  unfold extract_termin_payments
  exact (((List.perm_insertionSort terminLE _).map TerminPayment.amount).sum_eq).symm

/-- Payment-block invariant: a `termin` method always carries a non-empty,
sorted termin list whose length and amount sum are the derived totals. -/
theorem page1Payment_termin_inv (texts : List String) :
    (page1Payment texts).method_type = "termin" →
      ∃ l, (page1Payment texts).termin_payments = some l ∧ l ≠ [] ∧
        List.Sorted terminLE l ∧
        (page1Payment texts).total_termin_count = some l.length ∧
        (page1Payment texts).total_amount = some ((l.map TerminPayment.amount).sum) := by
  by_cases hdp : (detect_payment_type texts).1 = "termin"
  · by_cases hemp : (extract_termin_payments texts).1.isEmpty
    · intro h
      simp only [page1Payment, hdp, if_true, hemp, if_pos] at h
      exact absurd h (by decide)
    · intro _
      refine ⟨(extract_termin_payments texts).1, ?_, ?_, extract_termin_sorted texts, ?_, ?_⟩
      · simp [page1Payment, hdp, hemp]
      · exact List.isEmpty_eq_false.mp (by simpa using hemp)
      · simp [page1Payment, hdp, hemp, extract_termin_count]
      · simp [page1Payment, hdp, hemp, ← extract_termin_sum]
  · intro h
    simp only [page1Payment, hdp, if_false] at h

/-- Payment-block degrade: a termin classification with zero extracted
termins falls back to `one_time_charge` with the failure description and no
termin list. -/
theorem page1Payment_degrade (texts : List String)
    (h1 : (detect_payment_type texts).1 = "termin")
    (h2 : (extract_termin_payments texts).1 = []) :
    (page1Payment texts).method_type = "one_time_charge" ∧
    (page1Payment texts).description = "Pembayaran termin terdeteksi (gagal ekstrak detail)" ∧
    (page1Payment texts).termin_payments = none := by
  simp [page1Payment, h1, h2]

/-- C2: for every input, a record whose payment method is `termin` carries a
non-empty list sorted ascending by termin number with
`total_termin_count = length` and `total_amount = sum of amounts`; and a
termin classification whose pattern extraction yields zero termins is
degraded to `one_time_charge` with a failure description and no termin
list. -/
theorem termin_method_invariant (ocr : RawOcr) :
    ((extract_from_page1_one_time ocr).tata_cara_pembayaran.method_type = "termin" →
      ∃ l, (extract_from_page1_one_time ocr).tata_cara_pembayaran.termin_payments = some l ∧
        l ≠ [] ∧ List.Sorted terminLE l ∧
        (extract_from_page1_one_time ocr).tata_cara_pembayaran.total_termin_count =
          some l.length ∧
        (extract_from_page1_one_time ocr).tata_cara_pembayaran.total_amount =
          some ((l.map TerminPayment.amount).sum)) ∧
    ((detect_payment_type (texts_from_ocr ocr)).1 = "termin" →
      (extract_termin_payments (texts_from_ocr ocr)).1 = [] →
      (extract_from_page1_one_time ocr).tata_cara_pembayaran.method_type = "one_time_charge" ∧
      (extract_from_page1_one_time ocr).tata_cara_pembayaran.description =
        "Pembayaran termin terdeteksi (gagal ekstrak detail)" ∧
      (extract_from_page1_one_time ocr).tata_cara_pembayaran.termin_payments = none) := by
  have hr : (extract_from_page1_one_time ocr).tata_cara_pembayaran =
      page1Payment (texts_from_ocr ocr) := by
    simp only [extract_from_page1_one_time, extractFromTexts]
  rw [hr]
  exact ⟨page1Payment_termin_inv _, page1Payment_degrade _⟩

set_option maxRecDepth 100000 in
set_option maxHeartbeats 4000000 in
/-- Witness for C2: a document with one well-formed termin clause yields a
termin method, and the invariant instantiates at it. -/
theorem termin_method_invariant_witness :
    ∃ l, (extract_from_page1_one_time
        (RawOcr.arr ["Termin-1, yaitu periode Januari 2025: Rp1.000.000"])).tata_cara_pembayaran.termin_payments = some l ∧
      l ≠ [] ∧ List.Sorted terminLE l ∧
      (extract_from_page1_one_time
        (RawOcr.arr ["Termin-1, yaitu periode Januari 2025: Rp1.000.000"])).tata_cara_pembayaran.total_termin_count =
        some l.length ∧
      (extract_from_page1_one_time
        (RawOcr.arr ["Termin-1, yaitu periode Januari 2025: Rp1.000.000"])).tata_cara_pembayaran.total_amount =
        some ((l.map TerminPayment.amount).sum) :=
  (termin_method_invariant _).1 (by decide)

/-- `(l.drop n).getD k d = l.getD (n + k) d`. -/
theorem getD_drop {α : Type} (l : List α) (n k : Nat) (d : α) :
    (l.drop n).getD k d = l.getD (n + k) d := by
  simp [List.getD_eq_getElem?_getD, List.getElem?_drop]

/-- Characterization of the scan loop of `_find_eq`: it returns `base + k`
for the least `k` whose token normalizes to the target. -/
theorem findEqFrom_some_iff (tgt : String) (l : List String) :
    ∀ (base i : Nat), findEqFrom tgt l base = some i ↔
      ∃ k, k < l.length ∧ i = base + k ∧ normTok (l.getD k "") = tgt ∧
        ∀ j, j < k → normTok (l.getD j "") ≠ tgt := by
  induction l with
  | nil => intro base i; simp [findEqFrom]
  | cons t ts ih =>
    intro base i
    by_cases h : normTok t = tgt
    · simp only [findEqFrom, h, if_pos, Option.some.injEq]
      constructor
      · rintro rfl
        exact ⟨0, by simp, by simp, by simpa using h,
          fun j hj => absurd hj (Nat.not_lt_zero j)⟩
      · rintro ⟨k, hk, rfl, hke, hmin⟩
        cases k with
        | zero => simp
        | succ k' => exact absurd (by simpa using h) (by simpa using hmin 0 (Nat.succ_pos k'))
    · rw [show findEqFrom tgt (t :: ts) base = findEqFrom tgt ts (base + 1) by
        simp [findEqFrom, h]]
      rw [ih (base + 1) i]
      constructor
      · rintro ⟨k, hk, rfl, hke, hmin⟩
        refine ⟨k + 1, by simpa using hk, by omega, by simpa using hke, ?_⟩
        intro j hj
        cases j with
        | zero => simpa using h
        | succ j' => simpa using hmin j' (by omega)
      · rintro ⟨k, hk, rfl, hke, hmin⟩
        cases k with
        | zero => exact absurd (by simpa using hke) h
        | succ k' =>
          refine ⟨k', by simpa using hk, by omega, by simpa using hke, ?_⟩
          intro j hj
          simpa using hmin (j + 1) (by omega)

/-- The scan loop returns `none` iff no token normalizes to the target. -/
theorem findEqFrom_none_iff (tgt : String) (l : List String) :
    ∀ base : Nat, findEqFrom tgt l base = none ↔
      ∀ k, k < l.length → normTok (l.getD k "") ≠ tgt := by
  induction l with
  | nil => intro base; simp [findEqFrom]
  | cons t ts ih =>
    intro base
    by_cases h : normTok t = tgt
    · simp only [findEqFrom, h, if_pos]
      constructor
      · intro hc; cases hc
      · intro hall; exact absurd (by simpa using h) (by simpa using hall 0 (by simp))
    · rw [show findEqFrom tgt (t :: ts) base = findEqFrom tgt ts (base + 1) by
        simp [findEqFrom, h]]
      rw [ih (base + 1)]
      constructor
      · intro hall k hk
        cases k with
        | zero => simpa using h
        | succ k' => simpa using hall k' (by simpa using hk)
      · intro hall k hk
        simpa using hall (k + 1) (by simpa using hk)

/-- C7 (amended): `_find_eq` finds the first token at or after `start` that
is *equal* (case-insensitively, after trimming) to the label — substring
containment does not count — and `_value_after` returns the stripped
following token when that index is not the last, else nothing. -/
theorem find_next_labeled_value_amended (texts : List String) (label : String)
    (start : Nat) :
    (∀ i, find_eq texts label start = some i ↔
      (start ≤ i ∧ i < texts.length ∧
        normTok (texts.getD i "") = normTok label ∧
        ∀ j, start ≤ j → j < i → normTok (texts.getD j "") ≠ normTok label)) ∧
    (find_eq texts label start = none ↔
      ∀ j, start ≤ j → j < texts.length → normTok (texts.getD j "") ≠ normTok label) ∧
    value_after texts label start =
      (match find_eq texts label start with
       | some i =>
         if i + 1 < texts.length then some (stripS (texts.getD (i + 1) "")) else none
       | none => none) := by
  refine ⟨fun i => ?_, ?_, rfl⟩
  · rw [find_eq, findEqFrom_some_iff]
    constructor
    · rintro ⟨k, hk, rfl, hke, hmin⟩
      rw [List.length_drop] at hk
      rw [getD_drop] at hke
      refine ⟨by omega, by omega, hke, ?_⟩
      intro j hj1 hj2
      have := hmin (j - start) (by omega)
      rwa [getD_drop, show start + (j - start) = j by omega] at this
    · rintro ⟨hsi, hil, hie, hmin⟩
      refine ⟨i - start, by rw [List.length_drop]; omega, by omega, ?_, ?_⟩
      · rwa [getD_drop, show start + (i - start) = i by omega]
      · intro j hj
        rw [getD_drop]
        exact hmin (start + j) (by omega) (by omega)
  · rw [find_eq, findEqFrom_none_iff]
    constructor
    · intro hall j hj1 hj2
      have := hall (j - start) (by rw [List.length_drop]; omega)
      rwa [getD_drop, show start + (j - start) = j by omega] at this
    · intro hall k hk
      rw [List.length_drop] at hk
      rw [getD_drop]
      exact hall (start + k) (by omega) (by omega)

/-- Counterexample to C7 as stated: the first token *contains* the label
`Nama` (and a following token exists), yet `_value_after` reports not-found —
the primitive requires equality, not containment. -/
theorem find_next_labeled_value_counterexample :
    containsCi "xNamax" "Nama" = true ∧
    (["xNamax", "v"] : List String).length = 2 ∧
    value_after ["xNamax", "v"] "Nama" 0 = none :=
  ⟨by decide, by decide, by decide⟩

/-- A strip to the empty list means every character was whitespace-like. -/
theorem stripBy_eq_nil_iff (p : Char → Bool) (l : List Char) :
    stripBy p l = [] ↔ ∀ c ∈ l, p c = true := by
  unfold stripBy
  rw [List.reverse_eq_nil_iff, List.dropWhile_eq_nil_iff]
  constructor
  · intro h c hc
    by_cases hcp : p c = true
    · exact hcp
    · have hmem : c ∈ l.dropWhile p := by
        have hsplit := List.takeWhile_append_dropWhile p l
        rcases List.mem_append.mp (by rw [hsplit]; exact hc) with hin | hin
        · exact absurd (List.mem_takeWhile_imp hin) hcp
        · exact hin
      exact h c (List.mem_reverse.mpr hmem)
  · intro h c hc
    exact h c (List.dropWhile_sublist p |>.subset (List.mem_reverse.mp hc))

/-- Whitespace characters are fixed points of `lower`. -/
theorem isSpacePy_lowerC {c : Char} (h : isSpacePy c = true) : lowerC c = c := by
  simp only [isSpacePy, Bool.or_eq_true, decide_eq_true_eq] at h
  rcases h with ((((h | h) | h) | h) | h) | h <;> subst h <;> decide

/-- A token containing `PEMBAYARAN` (case-insensitively) has a non-whitespace
character. -/
theorem contains_pembayaran_nonspace {t : String}
    (h : containsCi t "PEMBAYARAN" = true) :
    ∃ c ∈ t.data, isSpacePy c = false := by
  have hinf : lowerL "PEMBAYARAN".data <:+: lowerL t.data := of_decide_eq_true h
  have hp : 'p' ∈ lowerL t.data := hinf.subset (by decide)
  obtain ⟨c, hc, hcl⟩ := List.mem_map.mp hp
  refine ⟨c, hc, ?_⟩
  by_contra hsp
  have hsp' : isSpacePy c = true := by
    cases hb : isSpacePy c
    · exact absurd hb hsp
    · rfl
  rw [isSpacePy_lowerC hsp'] at hcl
  subst hcl
  exact absurd hsp' (by decide)

/-- Any token containing the third-fallback phrase `KETENTUAN PEMBAYARAN`
also contains the second-fallback phrase `PEMBAYARAN`. -/
theorem ketentuan_implies_pembayaran {t : String}
    (h : containsCi t "KETENTUAN PEMBAYARAN" = true) :
    containsCi t "PEMBAYARAN" = true := by
  have hinf : lowerL "KETENTUAN PEMBAYARAN".data <:+: lowerL t.data := of_decide_eq_true h
  have hsub : lowerL "PEMBAYARAN".data <:+: lowerL "KETENTUAN PEMBAYARAN".data := by decide
  exact decide_eq_true (hsub.trans hinf)

/-- The containment scan, characterized: a hit names a containing token. -/
theorem findContainingFrom_some (kw : String) :
    ∀ (l : List String) (b i : Nat), findContainingFrom kw l b = some i →
      b ≤ i ∧ i - b < l.length ∧ containsCi (l.getD (i - b) "") kw = true := by
  intro l
  induction l with
  | nil => intro b i h; simp [findContainingFrom] at h
  | cons t ts ih =>
    intro b i h
    by_cases hc : containsCi t kw = true
    · simp only [findContainingFrom, hc, if_pos, Option.some.injEq] at h
      subst h
      simpa using hc
    · rw [show findContainingFrom kw (t :: ts) b = findContainingFrom kw ts (b + 1) by
        simp [findContainingFrom, hc]] at h
      obtain ⟨h1, h2, h3⟩ := ih (b + 1) i h
      refine ⟨by omega, by simp; omega, ?_⟩
      rw [show i - b = (i - (b + 1)) + 1 by omega]
      simpa using h3

/-- The containment scan misses iff no token contains the keyword. -/
theorem findContainingFrom_none (kw : String) :
    ∀ (l : List String) (b : Nat), findContainingFrom kw l b = none ↔
      ∀ t ∈ l, containsCi t kw = false := by
  intro l
  induction l with
  | nil => intro b; simp [findContainingFrom]
  | cons t ts ih =>
    intro b
    by_cases hc : containsCi t kw = true
    · simp [findContainingFrom, hc]
    · rw [show findContainingFrom kw (t :: ts) b = findContainingFrom kw ts (b + 1) by
        simp [findContainingFrom, hc]]
      rw [ih (b + 1)]
      constructor
      · intro hall u hu
        rcases List.mem_cons.mp hu with rfl | hu'
        · simpa using hc
        · exact hall u hu'
      · intro hall u hu
        exact hall u (List.mem_cons_of_mem _ hu)

/-- A head character of the joined window comes from the found token. -/
theorem mem_joinSep_head {c : Char} {t : String} (sep : List Char)
    (l : List String) (hc : c ∈ t.data) : c ∈ joinSep sep (t :: l) := by
  cases l with
  | nil => simpa [joinSep] using hc
  | cons u us => simp [joinSep, hc]

/-- When the keyword is found, `_slice_after_keyword` returns a non-empty
string (for any non-whitespace-only keyword occurrence; stated for
`PEMBAYARAN`). -/
theorem slice_pembayaran_ne_empty {texts : List String} {i : Nat}
    (h : findContaining texts "PEMBAYARAN" = some i) :
    slice_after_keyword texts "PEMBAYARAN" 20 ≠ "" := by
  obtain ⟨-, hlen, hcont⟩ := findContainingFrom_some _ texts 0 i h
  simp only [Nat.sub_zero] at hlen hcont
  unfold slice_after_keyword
  rw [show findContaining texts "PEMBAYARAN" = some i from h]
  intro hemp
  have hdata : stripL (joinSep [' '] ((texts.drop i).take 20)) = [] := by
    have := String.ext_iff.mp hemp
    simpa using this
  obtain ⟨c, hcmem, hcns⟩ := contains_pembayaran_nonspace hcont
  have hdrop : texts.drop i = texts.getD i "" :: texts.drop (i + 1) := by
    rw [List.getD_eq_getElem?_getD]
    rw [List.drop_eq_getElem_cons hlen]
    simp [List.getElem?_eq_getElem hlen]
  rw [hdrop] at hdata
  have hcj : c ∈ joinSep [' '] ((texts.getD i "" :: texts.drop (i + 1)).take 20) := by
    rw [List.take_cons]
    · exact mem_joinSep_head _ _ hcmem
    · omega
  have hallsp := (stripBy_eq_nil_iff _ _).mp hdata c hcj
  rw [hallsp] at hcns
  cases hcns

/-- Second fallback empty forces the third fallback empty. -/
theorem third_slice_empty {texts : List String}
    (h : slice_after_keyword texts "PEMBAYARAN" 20 = "") :
    slice_after_keyword texts "KETENTUAN PEMBAYARAN" 20 = "" := by
  cases hk : findContaining texts "KETENTUAN PEMBAYARAN" with
  | none => unfold slice_after_keyword; rw [hk]
  | some i =>
    exfalso
    obtain ⟨-, hlen, hcont⟩ := findContainingFrom_some _ texts 0 i hk
    simp only [Nat.sub_zero] at hlen hcont
    have hp : containsCi (texts.getD i "") "PEMBAYARAN" = true :=
      ketentuan_implies_pembayaran hcont
    cases hfp : findContaining texts "PEMBAYARAN" with
    | none =>
      have hall := (findContainingFrom_none "PEMBAYARAN" texts 0).mp hfp
      have hmem : texts.getD i "" ∈ texts := by
        rw [List.getD_eq_getElem?_getD, List.getElem?_eq_getElem hlen]
        exact List.getElem_mem hlen
      rw [hall _ hmem] at hp
      cases hp
    | some j => exact slice_pembayaran_ne_empty hfp h

/-- C10: the third header fallback of `_get_payment_section_text` is
unreachable — any token containing `KETENTUAN PEMBAYARAN` also contains
`PEMBAYARAN` — so the function equals the same function with the third
branch removed, on every input. -/
theorem payment_section_third_branch_redundant (texts : List String) :
    (∀ t : String, containsCi t "KETENTUAN PEMBAYARAN" = true →
      containsCi t "PEMBAYARAN" = true) ∧
    get_payment_section_text texts = get_payment_section_text_no3 texts := by
  refine ⟨fun t ht => ketentuan_implies_pembayaran ht, ?_⟩
  unfold get_payment_section_text get_payment_section_text_no3
  by_cases h1 : slice_after_keyword texts "TATA CARA PEMBAYARAN" 20 = ""
  · simp only [h1, if_neg, ne_eq, not_true_eq_false, if_false, ite_not]
    by_cases h2 : slice_after_keyword texts "PEMBAYARAN" 20 = ""
    · simp [h2, third_slice_empty h2]
    · simp [h2]
  · simp [h1]

/-- Witness for C10 (the containment implication component at a concrete
token, and the equality at a concrete document). -/
theorem payment_section_third_branch_redundant_witness :
    containsCi "Lihat KETENTUAN PEMBAYARAN berikut" "PEMBAYARAN" = true ∧
    get_payment_section_text ["pasal", "KETENTUAN PEMBAYARAN", "termin"] =
      get_payment_section_text_no3 ["pasal", "KETENTUAN PEMBAYARAN", "termin"] :=
  ⟨(payment_section_third_branch_redundant []).1
      "Lihat KETENTUAN PEMBAYARAN berikut" (by decide),
   (payment_section_third_branch_redundant _).2⟩

/-- A truthy first operand wins in the Python `or`. -/
theorem pyOr_truthy {a : String} (h : a ≠ "") (b : Option String) :
    pyOr (some a) b = some a := by
  simp [pyOr, strTruthy, h]

/-- Counterexample to C6 as stated: a date-range start that is set (non-null)
but equal to the falsy empty string is overwritten by the merge, so "filled
only when currently null" does not hold literally, and neither does "a fully
set date range is left unchanged". -/
theorem merge_overwrites_empty_start :
    mergeCounterRecord.jangka_waktu =
      some { mulai := some "", akhir := some "2025-01-01" } ∧
    (merge_with_page2 mergeCounterRecord
        (RawOcr.arr ["2024-01-01", "2024-02-02"])).jangka_waktu =
      some { mulai := some "2024-01-01", akhir := some "2025-01-01" } :=
  ⟨rfl, by decide⟩

/-- C6 (amended): the merge fills each date-range field only when it is
currently null or the empty string: a non-null, non-empty start survives any
page-2 input, so does a non-null, non-empty end, and a date range with both
fields non-null and non-empty is left entirely unchanged. -/
theorem merge_date_range_amended (existing : TelkomContractData) (ocr2 : RawOcr) :
    (∀ jw a, existing.jangka_waktu = some jw → jw.mulai = some a → a ≠ "" →
      ∃ jw', (merge_with_page2 existing ocr2).jangka_waktu = some jw' ∧
        jw'.mulai = some a) ∧
    (∀ jw b, existing.jangka_waktu = some jw → jw.akhir = some b → b ≠ "" →
      ∃ jw', (merge_with_page2 existing ocr2).jangka_waktu = some jw' ∧
        jw'.akhir = some b) ∧
    (∀ jw a b, existing.jangka_waktu = some jw → jw.mulai = some a → a ≠ "" →
      jw.akhir = some b → b ≠ "" →
      (merge_with_page2 existing ocr2).jangka_waktu = some jw) := by
  refine ⟨?_, ?_, ?_⟩
  · rintro ⟨om, oa⟩ a hjw hm ha
    simp only at hm
    subst hm
    simp only [merge_with_page2, hjw, Option.getD_some]
    refine ⟨_, rfl, ?_⟩
    split <;> split <;> simp [pyOr_truthy ha]
  · rintro ⟨om, oa⟩ b hjw hbk hb
    simp only at hbk
    subst hbk
    simp only [merge_with_page2, hjw, Option.getD_some]
    refine ⟨_, rfl, ?_⟩
    split <;> split <;> simp [pyOr_truthy hb]
  · rintro ⟨om, oa⟩ a b hjw hm ha hbk hb
    simp only at hm hbk
    subst hm
    subst hbk
    simp only [merge_with_page2, hjw, Option.getD_some]
    split <;> split <;> simp [pyOr_truthy ha, pyOr_truthy hb]

/-- Witness for C6: merging any page-2 input into a record whose date range
is fully set with non-empty dates leaves the range unchanged. -/
theorem merge_date_range_amended_witness :
    (merge_with_page2 mergeWitnessRecord RawOcr.other).jangka_waktu =
      some { mulai := some "2024-01-01", akhir := some "2025-12-31" } :=
  (merge_date_range_amended mergeWitnessRecord RawOcr.other).2.2 _ _ _ rfl rfl
    (by decide) rfl (by decide)

/-- Counterexample to C8 as stated: the section marker is found (index 0) and
two `Nama` occurrences follow (indices 1 and 3), yet the representative stays
unset — the value after the second occurrence is *not* assigned to the
representative, because no `Diwakili secara sah oleh:` token occurs. -/
theorem customer_two_names_counterexample :
    find_eq ["2.PELANGGAN", "Nama", "A", "Nama", "B"] "Nama" 0 = some 1 ∧
    find_eq ["2.PELANGGAN", "Nama", "A", "Nama", "B"] "Nama" 2 = some 3 ∧
    (extractFromTexts ["2.PELANGGAN", "Nama", "A", "Nama", "B"]).informasi_pelanggan =
      some { nama_pelanggan := some "A", alamat := none, npwp := none,
             perwakilan := none, kontak_person := none } :=
  ⟨by decide, by decide, by decide⟩

/-- C8 (amended): after the `2.PELANGGAN` anchor, the value following the
first `Nama` occurrence becomes the customer name; the representative name is
set only when a token containing `Diwakili secara sah oleh:` occurs after the
anchor, in which case it is the value after the first `Nama` occurrence at or
after that token (which may coincide with the customer-name occurrence); with
no such marker the representative stays unset. -/
theorem customer_extraction_amended (ocr : RawOcr) :
    ∀ p v, findPelangganFrom (texts_from_ocr ocr) 0 = some p →
      value_after (texts_from_ocr ocr) "Nama" p = some v → v ≠ "" →
      (∃ ip, (extract_from_page1_one_time ocr).informasi_pelanggan = some ip ∧
        ip.nama_pelanggan = some v) ∧
      (∀ j w, findSubstrFrom (texts_from_ocr ocr) "Diwakili secara sah oleh:" (p + 1) = some j →
        value_after (texts_from_ocr ocr) "Nama" j = some w → w ≠ "" →
        ∃ ip pr, (extract_from_page1_one_time ocr).informasi_pelanggan = some ip ∧
          ip.perwakilan = some pr ∧ pr.nama = some w) ∧
      (findSubstrFrom (texts_from_ocr ocr) "Diwakili secara sah oleh:" (p + 1) = none →
        ∃ ip, (extract_from_page1_one_time ocr).informasi_pelanggan = some ip ∧
          ip.perwakilan = none) := by
  intro p v hp hv hvne
  have hip : (extract_from_page1_one_time ocr).informasi_pelanggan =
      some { nama_pelanggan := (page1Customer (texts_from_ocr ocr)).1
             alamat := (page1Customer (texts_from_ocr ocr)).2.1
             npwp := (page1Customer (texts_from_ocr ocr)).2.2.1
             perwakilan := (page1Customer (texts_from_ocr ocr)).2.2.2
             kontak_person := none } := by
    simp only [extract_from_page1_one_time, extractFromTexts]
  refine ⟨?_, ?_, ?_⟩
  · refine ⟨_, hip, ?_⟩
    simp only [page1Customer, hp, hv, pyOr_truthy hvne]
  · intro j w hj hw hwne
    refine ⟨_, { nama := some w,
                 jabatan := pyOr (value_after (texts_from_ocr ocr) "Jabatan" j) none },
            hip, ?_, rfl⟩
    simp only [page1Customer, hp, hj, hw, pyOr_truthy hwne]
    simp [strTruthy, hwne]
  · intro hnone
    refine ⟨_, hip, ?_⟩
    simp only [page1Customer, hp, hnone]

/-- Witness for C8: customer name from the first occurrence, representative
name from the first occurrence after the `Diwakili secara sah oleh:`
marker. -/
theorem customer_extraction_amended_witness :
    (∃ ip, (extract_from_page1_one_time
        (RawOcr.arr ["2.PELANGGAN", "Nama", "A", "Diwakili secara sah oleh:", "Nama", "B"])).informasi_pelanggan =
        some ip ∧ ip.nama_pelanggan = some "A") ∧
    (∃ ip pr, (extract_from_page1_one_time
        (RawOcr.arr ["2.PELANGGAN", "Nama", "A", "Diwakili secara sah oleh:", "Nama", "B"])).informasi_pelanggan =
        some ip ∧ ip.perwakilan = some pr ∧ pr.nama = some "B") := by
  obtain ⟨h1, h2, h3⟩ := customer_extraction_amended
    (RawOcr.arr ["2.PELANGGAN", "Nama", "A", "Diwakili secara sah oleh:", "Nama", "B"])
    0 "A" (by decide) (by decide) (by decide)
  exact ⟨h1, h2 3 "B" (by decide) (by decide) (by decide)⟩

/-! ### Shape of the canonical date output (claim C5) -/

/-- A decimal digit character has value at most 9. -/
theorem digitVal_le9 {c : Char} (h : c.isDigit = true) : digitVal c ≤ 9 := by
  unfold digitVal
  simp [Char.isDigit] at h
  obtain ⟨h1, h2⟩ := h
  rw [UInt32.le_def, BitVec.le_def] at h1 h2
  simp [Char.toNat, UInt32.toNat] at *
  omega

/-- Folding decimal digits grows the accumulator by less than one digit-width
per character. -/
theorem natOfDigits_fold_lt (l : List Char) (h : ∀ c ∈ l, c.isDigit = true) :
    ∀ acc, l.foldl (fun a c => 10 * a + digitVal c) acc < (acc + 1) * 10 ^ l.length := by
  induction l with
  | nil =>
    intro acc
    simp only [List.foldl_nil, List.length_nil, pow_zero, mul_one]
    omega
  | cons c t ih =>
    intro acc
    have hc := digitVal_le9 (h c (by simp))
    have ht := ih (fun x hx => h x (by simp [hx])) (10 * acc + digitVal c)
    have h2 : (10 * acc + digitVal c + 1) * 10 ^ t.length ≤
        ((acc + 1) * 10) * 10 ^ t.length := Nat.mul_le_mul_right _ (by omega)
    have h3 : ((acc + 1) * 10) * 10 ^ t.length = (acc + 1) * 10 ^ (t.length + 1) := by
      rw [pow_succ]; ring
    simp only [List.foldl_cons, List.length_cons]
    exact lt_of_lt_of_le ht (h2.trans (le_of_eq h3))

/-- The value of a digit string is below `10 ^ length`. -/
theorem natOfDigits_lt (l : List Char) (h : ∀ c ∈ l, c.isDigit = true) :
    natOfDigits l < 10 ^ l.length := by
  simpa [natOfDigits] using natOfDigits_fold_lt l h 0

/-- `digitChar` always yields a digit character. -/
theorem digitChar_isDigit (n : Nat) : (digitChar n).isDigit = true := by
  unfold digitChar
  split_ifs <;> decide

/-- All characters of `natToStrAux` are digits. -/
theorem natToStrAux_digits : ∀ fuel n, ∀ c ∈ natToStrAux fuel n, c.isDigit = true := by
  intro fuel
  induction fuel with
  | zero => intro n c hc; simp [natToStrAux] at hc
  | succ f ih =>
    intro n c hc
    unfold natToStrAux at hc
    by_cases h : n < 10
    · simp only [h, if_pos, List.mem_singleton] at hc
      subst hc
      exact digitChar_isDigit n
    · simp only [h, if_neg, if_false, List.mem_append, List.mem_singleton] at hc
      rcases hc with hc | hc
      · exact ih (n / 10) c hc
      · subst hc; exact digitChar_isDigit (n % 10)

/-- `natToStrAux` has at most `k` digits when `n < 10 ^ k` (given enough
fuel). -/
theorem natToStrAux_length : ∀ fuel n k, n < fuel → n < 10 ^ k → 0 < k →
    (natToStrAux fuel n).length ≤ k := by
  intro fuel
  induction fuel with
  | zero => intro n k hnf; omega
  | succ f ih =>
    intro n k hnf hnk hk
    unfold natToStrAux
    by_cases h : n < 10
    · simp only [h, if_pos, List.length_singleton]
      omega
    · simp only [h, if_neg, if_false, List.length_append, List.length_singleton]
      have hk2 : 2 ≤ k := by
        rcases Nat.lt_or_ge k 2 with hh | hh
        · have hk1 : k = 1 := by omega
          subst hk1
          simp at hnk
          omega
        · exact hh
      have hdiv : n / 10 < n := Nat.div_lt_self (by omega) (by omega)
      have hd : n / 10 < f := by omega
      have hdk : n / 10 < 10 ^ (k - 1) := by
        rw [Nat.div_lt_iff_lt_mul (by omega)]
        calc n < 10 ^ k := hnk
        _ = 10 ^ (k - 1) * 10 := by
          rw [← pow_succ]
          congr 1
          omega
      have := ih (n / 10) (k - 1) hd hdk (by omega)
      omega

/-- Left-zero-padding to width `w` of a value below `10 ^ w` is exactly `w`
characters long. -/
theorem padNum_length {w n : Nat} (h : n < 10 ^ w) (hw : 0 < w) :
    (padNum w n).length = w := by
  unfold padNum
  rw [List.length_append, List.length_replicate]
  have := natToStrAux_length (n + 1) n w (Nat.lt_succ_self n) h hw
  unfold natToStr
  omega

/-- Padded numbers consist of digit characters only. -/
theorem padNum_digits {w n : Nat} : ∀ c ∈ padNum w n, c.isDigit = true := by
  intro c hc
  unfold padNum at hc
  rcases List.mem_append.mp hc with hc | hc
  · rw [List.eq_of_mem_replicate hc]; decide
  · exact natToStrAux_digits _ _ c hc

/-- A list of length two is a two-element literal. -/
theorem length_eq_two {α : Type} {l : List α} (h : l.length = 2) :
    ∃ a b, l = [a, b] := by
  cases l with
  | nil => simp at h
  | cons a t =>
    cases t with
    | nil => simp at h
    | cons b t2 =>
      cases t2 with
      | nil => exact ⟨a, b, rfl⟩
      | cons c t3 => simp at h

/-- A list of length three is a three-element literal. -/
theorem length_eq_three {α : Type} {l : List α} (h : l.length = 3) :
    ∃ a b c, l = [a, b, c] := by
  cases l with
  | nil => simp at h
  | cons a t =>
    obtain ⟨b, c, ht⟩ := length_eq_two (by simpa using h)
    exact ⟨a, b, c, by rw [ht]⟩

/-- A list of length four is a four-element literal. -/
theorem length_eq_four {α : Type} {l : List α} (h : l.length = 4) :
    ∃ a b c d, l = [a, b, c, d] := by
  cases l with
  | nil => simp at h
  | cons a t =>
    obtain ⟨b, c, d, ht⟩ := length_eq_three (by simpa using h)
    exact ⟨a, b, c, d, by rw [ht]⟩

/-- `_to_iso_date` with in-range components always has the canonical
`YYYY-MM-DD` shape. -/
theorem to_iso_shape {y m d : Nat} (hy : y < 10000) (hm : m < 100) (hd : d < 100) :
    isIsoShape (to_iso_date y m d) = true := by
  obtain ⟨a, b, c, d4, hA⟩ := length_eq_four (padNum_length (w := 4) (n := y) (by norm_num; omega) (by omega))
  obtain ⟨e, f, hB⟩ := length_eq_two (padNum_length (w := 2) (n := m) (by norm_num; omega) (by omega))
  obtain ⟨g, h2, hC⟩ := length_eq_two (padNum_length (w := 2) (n := d) (by norm_num; omega) (by omega))
  have ha : a.isDigit = true := padNum_digits a (by rw [hA]; simp)
  have hb : b.isDigit = true := padNum_digits b (by rw [hA]; simp)
  have hc : c.isDigit = true := padNum_digits c (by rw [hA]; simp)
  have hd4 : d4.isDigit = true := padNum_digits d4 (by rw [hA]; simp)
  have he : e.isDigit = true := padNum_digits e (by rw [hB]; simp)
  have hf : f.isDigit = true := padNum_digits f (by rw [hB]; simp)
  have hg : g.isDigit = true := padNum_digits g (by rw [hC]; simp)
  have hh2 : h2.isDigit = true := padNum_digits h2 (by rw [hC]; simp)
  unfold to_iso_date isIsoShape
  rw [hA, hB, hC]
  simp only [List.cons_append, List.nil_append]
  simp [ha, hb, hc, hd4, he, hf, hg, hh2]

/-- Whatever `re.search` finds, the underlying matcher found at some
position. -/
theorem scanOpt_some {α : Type} (f : Option Char → List Char → Option α) :
    ∀ (l : List Char) (prev : Option Char) {v : α},
      scanOpt f prev l = some v → ∃ p' l', f p' l' = some v := by
  intro l
  induction l with
  | nil => intro prev v h; exact ⟨prev, [], h⟩
  | cons c t ih =>
    intro prev v h
    unfold scanOpt at h
    cases hf : f prev (c :: t) with
    | some a =>
      rw [hf] at h
      simp only [Option.some.injEq] at h
      exact ⟨prev, c :: t, h ▸ hf⟩
    | none =>
      rw [hf] at h
      exact ih (some c) h

/-- A hit of `firstSome` comes from one of the candidates. -/
theorem firstSome_some {α β : Type} :
    ∀ (l : List α) (f : α → Option β) {b : β},
      firstSome l f = some b → ∃ a ∈ l, f a = some b := by
  intro l
  induction l with
  | nil => intro f b h; cases h
  | cons a as ih =>
    intro f b h
    unfold firstSome at h
    cases hf : f a with
    | some b' =>
      rw [hf] at h
      simp only [Option.some.injEq] at h
      exact ⟨a, by simp, h ▸ hf⟩
    | none =>
      rw [hf] at h
      obtain ⟨a', ha', hfa'⟩ := ih f h
      exact ⟨a', by simp [ha'], hfa'⟩

/-- Candidates of the greedy `(\d{1,2})` consist of at most two digit
characters. -/
theorem take12_mem {l : List Char} {pr : List Char × List Char}
    (h : pr ∈ take12 l) : pr.1.length ≤ 2 ∧ ∀ c ∈ pr.1, c.isDigit = true := by
  cases l with
  | nil => simp [take12] at h
  | cons a t =>
    cases t with
    | nil =>
      simp only [take12] at h
      split_ifs at h with h1
      · simp at h
        subst h
        refine ⟨by simp, ?_⟩
        intro c hc
        simp at hc
        subst hc
        exact h1
      · simp at h
    | cons b t2 =>
      simp only [take12] at h
      split_ifs at h with h1 h2
      · simp at h
        obtain ⟨h1a, h1b⟩ := Bool.and_eq_true_iff.mp h1
        rcases h with h | h <;> subst h
        · exact ⟨by simp, by intro c hc; simp at hc; rcases hc with rfl | rfl <;> assumption⟩
        · exact ⟨by simp, by intro c hc; simp at hc; subst hc; assumption⟩
      · simp at h
        subst h
        exact ⟨by simp, by intro c hc; simp at hc; subst hc; assumption⟩
      · simp at h

/-- The year alternation always yields a value below `10000`. -/
theorem year1920_lt {l : List Char} {y : Nat} {r : List Char}
    (h : year1920 l = some (y, r)) : y < 10000 := by
  rcases l with _ | ⟨a, _ | ⟨b, _ | ⟨c, _ | ⟨d, t⟩⟩⟩⟩ <;>
    simp only [year1920] at h <;> try cases h
  split_ifs at h with hc
  · simp only [Option.some.injEq, Prod.mk.injEq] at h
    obtain ⟨hy, -⟩ := h
    subst hy
    obtain ⟨hab, hcd, hdd⟩ := hc
    have hda : a.isDigit = true := by rcases hab with ⟨rfl, -⟩ | ⟨rfl, -⟩ <;> decide
    have hdb : b.isDigit = true := by rcases hab with ⟨-, rfl⟩ | ⟨-, rfl⟩ <;> decide
    have := natOfDigits_lt [a, b, c, d] (by
      intro x hx
      simp at hx
      rcases hx with rfl | rfl | rfl | rfl <;> assumption)
    simpa using this

/-- `(\d{4})` yields four digit characters. -/
theorem dig4_mem {l : List Char} {g r : List Char} (h : dig4 l = some (g, r)) :
    g.length = 4 ∧ ∀ c ∈ g, c.isDigit = true := by
  rcases l with _ | ⟨a, _ | ⟨b, _ | ⟨c, _ | ⟨d, t⟩⟩⟩⟩ <;>
    simp only [dig4] at h <;> try cases h
  split_ifs at h with hc
  · simp only [Option.some.injEq, Prod.mk.injEq] at h
    obtain ⟨hg, -⟩ := h
    subst hg
    have hall := Bool.and_eq_true_iff.mp hc
    have hall2 := Bool.and_eq_true_iff.mp hall.1
    have hall3 := Bool.and_eq_true_iff.mp hall2.1
    refine ⟨by simp, ?_⟩
    intro x hx
    simp at hx
    rcases hx with rfl | rfl | rfl | rfl
    · exact hall3.1
    · exact hall3.2
    · exact hall2.2
    · exact hall.2

/-- Month table values are below `100`. -/
theorem lookupMonth_lt :
    ∀ (ps : List (String × Nat)), (∀ p ∈ ps, p.2 < 100) →
      ∀ s m, lookupMonth ps s = some m → m < 100 := by
  intro ps
  induction ps with
  | nil => intro _ s m h; cases h
  | cons p pt ih =>
    intro hall s m h
    unfold lookupMonth at h
    split_ifs at h with he
    · simp at h
      subst h
      exact hall p (by simp)
    · exact ih (fun q hq => hall q (by simp [hq])) s m h

/-- `_ID_MONTHS` lookups are below `100`. -/
theorem idMonth_lt {s : String} {m : Nat} (h : idMonth s = some m) : m < 100 :=
  lookupMonth_lt idMonths (by decide) s m h

/-- Value bound for a `take12` capture. -/
theorem take12_value_lt {l : List Char} {pr : List Char × List Char}
    (h : pr ∈ take12 l) : natOfDigits pr.1 < 100 := by
  obtain ⟨hlen, hdig⟩ := take12_mem h
  have := natOfDigits_lt pr.1 hdig
  have hpow : 10 ^ pr.1.length ≤ 100 := by
    calc 10 ^ pr.1.length ≤ 10 ^ 2 := Nat.pow_le_pow_right (by norm_num) hlen
    _ = 100 := by norm_num
  omega

/-- Value bound for a `dig4` capture. -/
theorem dig4_value_lt {l g r : List Char} (h : dig4 l = some (g, r)) :
    natOfDigits g < 10000 := by
  obtain ⟨hlen, hdig⟩ := dig4_mem h
  have := natOfDigits_lt g hdig
  rw [hlen] at this
  simpa using this

/-- Bounds for the ISO pattern `\b(20\d{2}|19\d{2})-(\d{1,2})-(\d{1,2})\b`. -/
theorem p1At_bound {prev : Option Char} {l : List Char} {v : Nat × Nat × Nat}
    (h : p1At prev l = some v) : v.1 < 10000 ∧ v.2.1 < 100 ∧ v.2.2 < 100 := by
  unfold p1At at h
  split_ifs at h
  cases hy : year1920 l with
  | none => rw [hy] at h; cases h
  | some p =>
    obtain ⟨y, r1⟩ := p
    rw [hy] at h
    dsimp only at h
    cases r1 with
    | nil => cases h
    | cons c1 r2 =>
      dsimp only at h
      split_ifs at h
      obtain ⟨md, hmdmem, hmd⟩ := firstSome_some _ _ h
      cases hm2 : md.2 with
      | nil => rw [hm2] at hmd; cases hmd
      | cons c2 r4 =>
        rw [hm2] at hmd
        dsimp only at hmd
        split_ifs at hmd
        obtain ⟨dd, hddmem, hdd⟩ := firstSome_some _ _ hmd
        split_ifs at hdd
        simp only [Option.some.injEq] at hdd
        subst hdd
        exact ⟨year1920_lt hy, take12_value_lt hmdmem, take12_value_lt hddmem⟩

/-- Bounds for `\b(\d{1,2})[\/\-](\d{1,2})[\/\-](20\d{2}|19\d{2})\b`. -/
theorem p2At_bound {prev : Option Char} {l : List Char} {v : Nat × Nat × Nat}
    (h : p2At prev l = some v) : v.1 < 100 ∧ v.2.1 < 100 ∧ v.2.2 < 10000 := by
  unfold p2At at h
  split_ifs at h
  obtain ⟨dd, hddmem, hdd⟩ := firstSome_some _ _ h
  cases hd2 : dd.2 with
  | nil => rw [hd2] at hdd; cases hdd
  | cons c r2 =>
    rw [hd2] at hdd
    dsimp only at hdd
    split_ifs at hdd
    obtain ⟨mm, hmmmem, hmm⟩ := firstSome_some _ _ hdd
    cases hm2 : mm.2 with
    | nil => rw [hm2] at hmm; cases hmm
    | cons c2 r3 =>
      rw [hm2] at hmm
      dsimp only at hmm
      split_ifs at hmm
      cases hy : year1920 r3 with
      | none => rw [hy] at hmm; cases hmm
      | some p =>
        obtain ⟨y, r4⟩ := p
        rw [hy] at hmm
        dsimp only at hmm
        split_ifs at hmm
        simp only [Option.some.injEq] at hmm
        subst hmm
        exact ⟨take12_value_lt hddmem, take12_value_lt hmmmem, year1920_lt hy⟩

/-- Bounds for `\b(\d{1,2})\s+([A-Za-z\.]+)\s+(20\d{2}|19\d{2})\b` (day and
year components; the month is resolved through the table). -/
theorem p3At_bound {prev : Option Char} {l : List Char} {v : Nat × List Char × Nat}
    (h : p3At prev l = some v) : v.1 < 100 ∧ v.2.2 < 10000 := by
  unfold p3At at h
  split_ifs at h
  obtain ⟨dd, hddmem, hdd⟩ := firstSome_some _ _ h
  dsimp only at hdd
  split_ifs at hdd
  cases hy : year1920 (((dd.2.dropWhile isSpacePy).dropWhile
      (fun c => c.isAlpha || c = '.')).dropWhile isSpacePy) with
  | none => rw [hy] at hdd; cases hdd
  | some p =>
    obtain ⟨y, r4⟩ := p
    rw [hy] at hdd
    dsimp only at hdd
    split_ifs at hdd
    simp only [Option.some.injEq] at hdd
    subst hdd
    exact ⟨take12_value_lt hddmem, year1920_lt hy⟩

/-- Bounds for `\b(\d{1,2})([A-Za-z]+)(\d{4})\b`. -/
theorem p4At_bound {prev : Option Char} {l : List Char} {v : Nat × List Char × Nat}
    (h : p4At prev l = some v) : v.1 < 100 ∧ v.2.2 < 10000 := by
  unfold p4At at h
  split_ifs at h
  obtain ⟨dd, hddmem, hdd⟩ := firstSome_some _ _ h
  dsimp only at hdd
  split_ifs at hdd
  obtain ⟨ms, hmsmem, hms⟩ := firstSome_some _ _ hdd
  cases hy : dig4 ms.2 with
  | none => rw [hy] at hms; cases hms
  | some p =>
    obtain ⟨y4, r2⟩ := p
    rw [hy] at hms
    dsimp only at hms
    split_ifs at hms
    simp only [Option.some.injEq] at hms
    subst hms
    exact ⟨take12_value_lt hddmem, dig4_value_lt hy⟩

/-- Bounds for `\b(\d{1,2})\s*([A-Za-z]+)(\d{4})\b`. -/
theorem p5At_bound {prev : Option Char} {l : List Char} {v : Nat × List Char × Nat}
    (h : p5At prev l = some v) : v.1 < 100 ∧ v.2.2 < 10000 := by
  unfold p5At at h
  split_ifs at h
  obtain ⟨dd, hddmem, hdd⟩ := firstSome_some _ _ h
  dsimp only at hdd
  split_ifs at hdd
  obtain ⟨ms, hmsmem, hms⟩ := firstSome_some _ _ hdd
  cases hy : dig4 ms.2 with
  | none => rw [hy] at hms; cases hms
  | some p =>
    obtain ⟨y4, r3⟩ := p
    rw [hy] at hms
    dsimp only at hms
    split_ifs at hms
    simp only [Option.some.injEq] at hms
    subst hms
    exact ⟨take12_value_lt hddmem, dig4_value_lt hy⟩

/-- Pattern 5 only produces canonical `YYYY-MM-DD` strings. -/
theorem parseDateP5_shape {l : List Char} {r : String}
    (h : parseDateP5 l = some r) : isIsoShape r = true := by
  unfold parseDateP5 at h
  cases hscan : scanOpt p5At none l with
  | none => rw [hscan] at h; cases h
  | some v =>
    obtain ⟨d, mon, y⟩ := v
    rw [hscan] at h
    dsimp only at h
    cases hm : idMonth ⟨lowerL mon⟩ with
    | none => rw [hm] at h; cases h
    | some mo =>
      rw [hm] at h
      simp only [Option.some.injEq] at h
      subst h
      obtain ⟨p', l', hf⟩ := scanOpt_some _ _ _ hscan
      obtain ⟨hd, hy⟩ := p5At_bound hf
      exact to_iso_shape hy (idMonth_lt hm) hd

/-- Pattern 4 (falling through to pattern 5) only produces canonical
strings. -/
theorem parseDateP4_shape {l : List Char} {r : String}
    (h : parseDateP4 l = some r) : isIsoShape r = true := by
  unfold parseDateP4 at h
  cases hscan : scanOpt p4At none l with
  | none =>
    rw [hscan] at h
    exact parseDateP5_shape h
  | some v =>
    obtain ⟨d, mon, y⟩ := v
    rw [hscan] at h
    dsimp only at h
    cases hm : idMonth ⟨lowerL mon⟩ with
    | none =>
      rw [hm] at h
      exact parseDateP5_shape h
    | some mo =>
      rw [hm] at h
      simp only [Option.some.injEq] at h
      subst h
      obtain ⟨p', l', hf⟩ := scanOpt_some _ _ _ hscan
      obtain ⟨hd, hy⟩ := p4At_bound hf
      exact to_iso_shape hy (idMonth_lt hm) hd

/-- Every `some` result of `_parse_date_id` has the canonical shape. -/
theorem parse_date_id_shape {s : String} {r : String}
    (h : parse_date_id s = some r) : isIsoShape r = true := by
  unfold parse_date_id at h
  dsimp only at h
  cases h1 : scanOpt p1At none (stripL s.data) with
  | some v =>
    obtain ⟨y, m, d⟩ := v
    rw [h1] at h
    simp only [Option.some.injEq] at h
    subst h
    obtain ⟨p', l', hf⟩ := scanOpt_some _ _ _ h1
    obtain ⟨hy, hm, hd⟩ := p1At_bound hf
    exact to_iso_shape hy hm hd
  | none =>
    rw [h1] at h
    dsimp only at h
    cases h2 : scanOpt p2At none (stripL s.data) with
    | some v =>
      obtain ⟨d, m, y⟩ := v
      rw [h2] at h
      simp only [Option.some.injEq] at h
      subst h
      obtain ⟨p', l', hf⟩ := scanOpt_some _ _ _ h2
      obtain ⟨hd, hm, hy⟩ := p2At_bound hf
      exact to_iso_shape hy hm hd
    | none =>
      rw [h2] at h
      dsimp only at h
      cases h3 : scanOpt p3At none (stripL s.data) with
      | some v =>
        obtain ⟨d, mon, y⟩ := v
        rw [h3] at h
        dsimp only at h
        cases hm : idMonth ⟨stripDots (lowerL mon)⟩ with
        | none =>
          rw [hm] at h
          exact parseDateP4_shape h
        | some mo =>
          rw [hm] at h
          simp only [Option.some.injEq] at h
          subst h
          obtain ⟨p', l', hf⟩ := scanOpt_some _ _ _ h3
          obtain ⟨hd, hy⟩ := p3At_bound hf
          exact to_iso_shape hy (idMonth_lt hm) hd
      | none =>
        rw [h3] at h
        exact parseDateP4_shape h

/-- C5: `_parse_date_id` maps the spec's three examples as stated, and for
every input returns either a canonical `YYYY-MM-DD` string or nothing — never
a partial or ambiguous value. -/
theorem parse_date_id_canonical :
    parse_date_id "31 Desember 2025" = some "2025-12-31" ∧
    parse_date_id "01Januari2025" = some "2025-01-01" ∧
    parse_date_id "garbled" = none ∧
    ∀ s : String, Option.all isIsoShape (parse_date_id s) = true := by
  refine ⟨by decide, by decide, by decide, fun s => ?_⟩
  cases h : parse_date_id s with
  | none => rfl
  | some r => simpa [Option.all_some] using parse_date_id_shape h

end TelkomExtractor
